import Mathlib

/-!
Verification development for the esperopp front end (tokenizer + recursive
descent parser).  The definitions below are a shallow embedding of the C++
sources `token.hpp` (class `Tokenizer`) and `parser.hpp` (class `Parser`,
AST node model from `ast.hpp`).  C++ strings are embedded as `List Char`,
the mutable cursor of each class as an explicit state value, and thrown
`std::runtime_error`s as `Except String`.

The tokenizer's character loops (`skipWhitespace`, `skipComment`,
`readNumber`, `readString`, `readIdentifier`) all step the cursor with
`Tokenizer::advance`, which consumes exactly the head character of the
remaining source: on `'\n'` it increments the line counter and resets the
column to 0, otherwise it increments the column (past the end of the source
it still increments the column).  To keep every definition
kernel-computable, those loops are written by structural recursion on the
remaining character list with that `advance` step inlined at each
consumption site; each case is annotated with the character consumed so the
inlining can be checked against `Tokenizer::advance` directly.
-/

/-- The `'\0'` sentinel `Tokenizer::current` returns at end of input. -/
def nulChar : Char := Char.ofNat 0

/-- C `isdigit` (execution character set is ASCII): `'0'..'9'`. -/
def isDigitC (c : Char) : Bool := 48 ≤ c.toNat && c.toNat ≤ 57

/-- C `isalpha` in the C locale: `'A'..'Z'` or `'a'..'z'`. -/
def isAlphaC (c : Char) : Bool :=
  (65 ≤ c.toNat && c.toNat ≤ 90) || (97 ≤ c.toNat && c.toNat ≤ 122)

/-- C `isspace` in the C locale: space, `\t`, `\n`, `\v`, `\f`, `\r`. -/
def isSpaceC (c : Char) : Bool := c.toNat = 32 || (9 ≤ c.toNat && c.toNat ≤ 13)

/-- C `isalnum`: letter or digit. -/
def isAlnumC (c : Char) : Bool := isAlphaC c || isDigitC c

/-- `enum class TokenType` from `token.hpp`. -/
inductive TokenType where
  | number | string | identifier
  | funkcio | klaso | se | alie | dum | reveni | tiu | vero | malvero
  | entjera | reala | teksta | bulea | funkcia
  | plus | minus | multiply | divide | assign | equal | notEqual
  | less | greater | lessEqual | greaterEqual
  | lparen | rparen | lbrace | rbrace | semicolon | comma | atSign | dot
  | endOfFile | unknown
deriving DecidableEq, Repr

/-- `struct Token` from `token.hpp`: kind, captured text, line, column.
`line` is 1-based, `column` 0-based, as maintained by the tokenizer. -/
structure Token where
  type : TokenType
  value : List Char
  line : Nat
  column : Nat
deriving DecidableEq, Repr

/-- The tokenizer's mutable cursor: the not-yet-consumed suffix of the
source (`m_position` is represented by how much has been dropped), plus
`m_line` and `m_column`. -/
structure LexSt where
  src : List Char
  line : Nat
  col : Nat
deriving DecidableEq, Repr

/-- `Tokenizer::current`: the character at the cursor, `'\0'` past the end. -/
def LexSt.cur (st : LexSt) : Char :=
  match st.src with
  | [] => nulChar
  | c :: _ => c

/-- `Tokenizer::peek` with the default offset 1. -/
def LexSt.peek1 (st : LexSt) : Char :=
  match st.src with
  | _ :: c :: _ => c
  | _ => nulChar

/-- `Tokenizer::advance`: bump the line counter and reset the column on a
newline, otherwise bump the column; always step the position.  (When the
cursor is already past the end, C++ still increments `m_column`; `List.tail`
of `[]` is `[]`, matching the out-of-range read guard in `current`.) -/
def LexSt.advance (st : LexSt) : LexSt :=
  if st.cur = '\n' then ⟨st.src.tail, st.line + 1, 0⟩
  else ⟨st.src.tail, st.line, st.col + 1⟩

/-- Loop of `Tokenizer::skipWhitespace` over (remaining source, line, col).
Whitespace characters other than `'\n'` advance the column; `'\n'` advances
the line, exactly as `advance` does on each consumed character. -/
def skipWhitespaceAux : List Char → Nat → Nat → LexSt
  | [], l, co => ⟨[], l, co⟩
  | c :: rest, l, co =>
    if isSpaceC c then
      if c = '\n' then skipWhitespaceAux rest (l + 1) 0
      else skipWhitespaceAux rest l (co + 1)
    else ⟨c :: rest, l, co⟩

/-- `Tokenizer::skipWhitespace`: skip a whitespace run; report whether at
least one character was consumed (true exactly when the first is space). -/
def skipWhitespace (st : LexSt) : LexSt × Bool :=
  (skipWhitespaceAux st.src st.line st.col, isSpaceC st.cur)

/-- Inner loop of `Tokenizer::skipComment`: consume to end of line or end
of input.  The consumed characters are never `'\n'`, so each consumption
advances the column. -/
def skipLineAux : List Char → Nat → Nat → LexSt
  | [], l, co => ⟨[], l, co⟩
  | c :: rest, l, co =>
    if c = '\n' ∨ c = nulChar then ⟨c :: rest, l, co⟩
    else skipLineAux rest l (co + 1)

/-- `Tokenizer::skipComment`: on `//` consume the rest of the line; the
flag is true exactly when a comment start was seen (the loop then runs at
least once, since the cursor is on `'/'`). -/
def skipComment (st : LexSt) : LexSt × Bool :=
  if st.cur = '/' ∧ st.peek1 = '/' then (skipLineAux st.src st.line st.col, true)
  else (st, false)

/-- Loop of `Tokenizer::readNumber`: digits with at most one `'.'`; a
second `'.'` breaks out of the loop immediately, leaving it unconsumed.
Digits and `'.'` are never `'\n'`, so consumption advances the column. -/
def readNumberAux : List Char → Nat → Nat → List Char → Bool → List Char × LexSt
  | [], l, co, acc, _ => (acc, ⟨[], l, co⟩)
  | c :: rest, l, co, acc, isFloat =>
    if isDigitC c || c = '.' then
      if c = '.' then
        if isFloat then (acc, ⟨c :: rest, l, co⟩)
        else readNumberAux rest l (co + 1) (acc ++ [c]) true
      else readNumberAux rest l (co + 1) (acc ++ [c]) isFloat
    else (acc, ⟨c :: rest, l, co⟩)

/-- `Tokenizer::readNumber`: the Number token captures the digits/dot run;
its recorded line is `m_line` after the run, its column the start column. -/
def readNumber (st : LexSt) : Token × LexSt :=
  let startColumn := st.col
  let (number, st1) := readNumberAux st.src st.line st.col [] false
  (⟨.number, number, st1.line, startColumn⟩, st1)

/-- Loop of `Tokenizer::readString`: read to the closing quote or end of
input, translating `\n`, `\t`, `\\`, `\"` escapes and copying any other
escaped character through.  In the escape branch C++ advances past the
backslash, appends the translation of the character then found (`'\0'` when
the source ended), and advances again; both `advance` steps are inlined
(`'\\'` is not `'\n'`, so the first always increments the column). -/
def readStringAux : List Char → Nat → Nat → List Char → List Char × LexSt
  | [], l, co, acc => (acc, ⟨[], l, co⟩)
  | c :: rest, l, co, acc =>
    if c = '"' ∨ c = nulChar then (acc, ⟨c :: rest, l, co⟩)
    else if c = '\\' then
      match rest with
      | [] => (acc ++ [nulChar], ⟨[], l, co + 2⟩)
      | d :: rest2 =>
        let acc1 :=
          if d = 'n' then acc ++ ['\n']
          else if d = 't' then acc ++ ['\t']
          else if d = '\\' then acc ++ ['\\']
          else if d = '"' then acc ++ ['"']
          else acc ++ [d]
        if d = '\n' then readStringAux rest2 (l + 1) 0 acc1
        else readStringAux rest2 l (co + 2) acc1
    else if c = '\n' then readStringAux rest (l + 1) 0 (acc ++ [c])
    else readStringAux rest l (co + 1) (acc ++ [c])

/-- `Tokenizer::readString`: consume the opening quote, the body, and (when
present) the closing quote; the token records `m_line` at that point and
the column of the opening quote. -/
def readString (st : LexSt) : Token × LexSt :=
  let startColumn := st.col
  let st1 := st.advance
  let (str, st2) := readStringAux st1.src st1.line st1.col []
  let st3 := if st2.cur = '"' then st2.advance else st2
  (⟨.string, str, st3.line, startColumn⟩, st3)

/-- Loop of `Tokenizer::readIdentifier`: alphanumerics and underscores
(never `'\n'`, so consumption advances the column). -/
def readIdentifierAux : List Char → Nat → Nat → List Char → List Char × LexSt
  | [], l, co, acc => (acc, ⟨[], l, co⟩)
  | c :: rest, l, co, acc =>
    if isAlnumC c || c = '_' then readIdentifierAux rest l (co + 1) (acc ++ [c])
    else (acc, ⟨c :: rest, l, co⟩)

/-- The `Id2TokenType` keyword table: a hit yields the keyword kind, a miss
the generic Identifier kind. -/
def keywordType (id : List Char) : TokenType :=
  if id = "funkcio".data then .funkcio
  else if id = "klaso".data then .klaso
  else if id = "se".data then .se
  else if id = "alie".data then .alie
  else if id = "dum".data then .dum
  else if id = "reveni".data then .reveni
  else if id = "tiu".data then .tiu
  else if id = "vero".data then .vero
  else if id = "malvero".data then .malvero
  else if id = "entjera".data then .entjera
  else if id = "reala".data then .reala
  else if id = "teksta".data then .teksta
  else if id = "bulea".data then .bulea
  else if id = "funkcia".data then .funkcia
  else .identifier

/-- `Tokenizer::readIdentifier`. -/
def readIdentifier (st : LexSt) : Token × LexSt :=
  let startColumn := st.col
  let (id, st1) := readIdentifierAux st.src st.line st.col []
  (⟨keywordType id, id, st1.line, startColumn⟩, st1)

/-- The `switch` in `Tokenizer::tokenize` over a single leading character:
the resulting kind and text, and the state after the *optional inner*
`advance` of the two-character operators (the final unconditional `advance`
of the loop body is performed by the caller). -/
def readOperator (st : LexSt) : TokenType × List Char × LexSt :=
  let c := st.cur
  let one := [c]
  if c = '+' then (.plus, one, st)
  else if c = '-' then (.minus, one, st)
  else if c = '*' then (.multiply, one, st)
  else if c = '/' then (.divide, one, st)
  else if c = '(' then (.lparen, one, st)
  else if c = ')' then (.rparen, one, st)
  else if c = '\x7b' then (.lbrace, one, st)
  else if c = '\x7d' then (.rbrace, one, st)
  else if c = ';' then (.semicolon, one, st)
  else if c = ',' then (.comma, one, st)
  else if c = '@' then (.atSign, one, st)
  else if c = '.' then (.dot, one, st)
  else if c = '=' then
    if st.peek1 = '=' then (.equal, "==".data, st.advance) else (.assign, one, st)
  else if c = '!' then
    if st.peek1 = '=' then (.notEqual, "!=".data, st.advance) else (.unknown, one, st)
  else if c = '<' then
    if st.peek1 = '=' then (.lessEqual, "<=".data, st.advance) else (.less, one, st)
  else if c = '>' then
    if st.peek1 = '=' then (.greaterEqual, ">=".data, st.advance) else (.greater, one, st)
  else (.unknown, one, st)

/-- The `while` loop of `Tokenizer::tokenize`, fuel-indexed (`none` means
the fuel ran out; the sufficiency of source-length fuel is proved below).
Each emitted token is paired with the cursor line/column at the moment its
reading began (the value C++ captures as `startColumn`, plus `m_line` at
that same point), which serves the position claims; the end-of-input token
is paired with its own position. -/
def tokenizeLoop : Nat → LexSt → Option (List (Token × Nat × Nat) × LexSt)
  | 0, _ => none
  | n+1, st =>
    if st.cur = nulChar then
      some ([(⟨.endOfFile, [], st.line, st.col⟩, st.line, st.col)], st)
    else
      let (st1, ws) := skipWhitespace st
      if ws then tokenizeLoop n st1
      else
        let (st2, cm) := skipComment st1
        if cm then tokenizeLoop n st2
        else
          let startLine := st2.line
          let startColumn := st2.col
          let (tok, st3) :=
            if isDigitC st2.cur then readNumber st2
            else if st2.cur = '"' then readString st2
            else if isAlphaC st2.cur || st2.cur = '_' then readIdentifier st2
            else
              let (ty, val, stMid) := readOperator st2
              (⟨ty, val, stMid.line, startColumn⟩, stMid.advance)
          (tokenizeLoop n st3).map (fun res => ((tok, startLine, startColumn) :: res.1, res.2))

/-- `Tokenizer::tokenize` on a whole source string (cursor starts at line 1,
column 0), with start positions attached and the final cursor returned. -/
def tokenizeFull (s : String) : Option (List (Token × Nat × Nat) × LexSt) :=
  tokenizeLoop (s.data.length + 1) ⟨s.data, 1, 0⟩

/-- `Tokenizer::tokenize`: just the token sequence. -/
def tokenize (s : String) : Option (List Token) :=
  (tokenizeFull s).map (fun p => p.1.map (fun q => q.1))

/-!
The type and AST data model from `ast.hpp`.  `shared_ptr` children become
plain values (the spec's design notes record that nodes are never aliased);
the `double value` of `NumberLiteral` (computed by `std::stod` from the
token text) is embedded as the token text itself, since floating-point
arithmetic is outside the embedding and no claim depends on the numeric
value; the optional `type` annotation slot of `ExprNode` is omitted because
the parser never writes it (the spec names a future type-checking pass as
its only intended writer).
-/

/-- `enum class TypeKind` from `ast.hpp`. -/
inductive TypeKind where
  | entjera | reala | teksta | bulea | funkcia | klaso | void
deriving DecidableEq, Repr

/-- `struct Type`: kind plus optional function components and class name.
The parser itself only ever builds bare kinds (`createFunction` and
`className` stay unused during parsing). -/
inductive Ty where
  | mk (kind : TypeKind) (returnType : Option Ty) (paramType : Option Ty) (className : List Char)

/-- `BinaryOpNode::OpType`. -/
inductive OpType where
  | add | sub | mul | div | eq | neq | lt | gt | le | ge
deriving DecidableEq, Repr

mutual
/-- Expression node variants from `ast.hpp`. -/
inductive ExprNode where
  | numberLiteral (value : List Char) (isInteger : Bool)
  | stringLiteral (value : List Char)
  | boolLiteral (value : Bool)
  | varRef (name : List Char)
  | binaryOp (op : OpType) (left : ExprNode) (right : ExprNode)
  | call (function : ExprNode) (argument : ExprNode)
  | atFunction (paramName : List Char) (paramType : Ty) (returnType : Ty) (body : List ASTNode)
  | memberAccess (object : ExprNode) (member : List Char)
/-- Statement node variants from `ast.hpp`.  `ClassDeclNode` restricts its
fields to variable declarations and its methods to function declarations in
C++; the common `StmtNode` supertype is used here. -/
inductive StmtNode where
  | varDecl (name : List Char) (type : Ty) (initializer : Option ExprNode)
  | assign (name : List Char) (value : ExprNode)
  | functionDecl (name : List Char) (paramName : List Char) (paramType : Ty) (returnType : Ty)
      (body : List ASTNode)
  | ret (value : ExprNode)
  | ifStmt (condition : ExprNode) (thenBody : List ASTNode) (elseBody : List ASTNode)
  | whileStmt (condition : ExprNode) (body : List ASTNode)
  | classDecl (name : List Char) (fields : List StmtNode) (methods : List StmtNode)
/-- The `ASTNode` base: a parsed statement position holds either a statement
proper or a bare expression (`Parser::parseStatement` returns the expression
node itself for an expression statement). -/
inductive ASTNode where
  | expr (e : ExprNode)
  | stmt (s : StmtNode)
end

/-- The parser's state: the immutable token sequence and the cursor
`m_position`. -/
structure PSt where
  tokens : List Token
  pos : Nat
deriving DecidableEq

/-- `Parser::current`: `m_tokens[m_position]`.  C++ indexes unchecked; the
parser is only ever run on tokenizer output, which is non-empty and
`EndOfFile`-terminated, and `advance` never moves past the last token, so
the index stays in bounds there; out-of-range reads fall back to an
end-of-input token here. -/
def PSt.cur (st : PSt) : Token :=
  st.tokens.getD st.pos ⟨.endOfFile, [], 0, 0⟩

/-- `Parser::advance`: step the cursor unless already on the last token. -/
def PSt.advance (st : PSt) : PSt :=
  if st.pos < st.tokens.length - 1 then ⟨st.tokens, st.pos + 1⟩ else st

/-- `Parser::match`: consume the current token when its kind matches. -/
def pMatch (st : PSt) (ty : TokenType) : Bool × PSt :=
  if st.cur.type = ty then (true, st.advance) else (false, st)

/-- `Parser::expect`: like `match`, but a mismatch raises the given message
together with the line of the offending token. -/
def expect (st : PSt) (ty : TokenType) (message : String) : Except String PSt :=
  let p := pMatch st ty
  if p.1 then .ok p.2 else .error (message ++ " at line " ++ toString st.cur.line)

/-- `Parser::parseType`: consume one token; the five primitive type
keywords map to their kinds, anything else raises `"Expected type"`
(with no line information). -/
def parseType (st : PSt) : Except String (Ty × PSt) :=
  let t := st.cur.type
  let st1 := st.advance
  match t with
  | .entjera => .ok (.mk .entjera none none [], st1)
  | .reala => .ok (.mk .reala none none [], st1)
  | .teksta => .ok (.mk .teksta none none [], st1)
  | .bulea => .ok (.mk .bulea none none [], st1)
  | .funkcia => .ok (.mk .funkcia none none [], st1)
  | _ => .error "Expected type"

/-- Error used when the parser's fuel runs out; a model artifact (C++
recursion has no fuel), distinct from every parser message. -/
def fuelMsg : String := "out of fuel"

mutual
/-- `Parser::parsePrimary`.  The Number branch follows the C++ exactly:
`isInt` is set to `value.contains('.')` — true when the text DOES contain
a dot — and passed as the `isInteger` flag of the literal node.  (Pair
results of `pMatch`/`parseType`/sub-parsers are accessed by projection;
`p.1` is the match flag / parsed value and `p.2` the new parser state.) -/
def parsePrimary : Nat → PSt → Except String (ExprNode × PSt)
  | 0, _ => .error fuelMsg
  | n+1, st =>
    let ty := st.cur.type
    if ty = .number then
      let value := st.cur.value
      let isInt := value.contains '.'
      .ok (.numberLiteral value isInt, st.advance)
    else if ty = .string then .ok (.stringLiteral st.cur.value, st.advance)
    else if ty = .vero then .ok (.boolLiteral true, st.advance)
    else if ty = .malvero then .ok (.boolLiteral false, st.advance)
    else
      let pAt := pMatch st .atSign
      if pAt.1 then do
        let st2 ← expect pAt.2 .lparen "Expected '(' after '@'"
        let tp ← parseType st2
        let paramName := tp.2.cur.value
        let st4 ← expect tp.2 .identifier "Expected parameter name"
        let st5 ← expect st4 .rparen "Expected ')'"
        let rp ← parseType st5
        let st7 ← expect rp.2 .lbrace "Expected '\x7b'"
        let bp ← parseStmtList n st7
        .ok (.atFunction paramName tp.1 rp.1 bp.1, bp.2)
      else
        let pLp := pMatch st .lparen
        if pLp.1 then do
          let ep ← parseExpression n pLp.2
          let st3 ← expect ep.2 .rparen "Expected ')'"
          .ok (ep.1, st3)
        else if ty = .identifier ∨ ty = .tiu then
          .ok (.varRef st.cur.value, st.advance)
        else .error "Unexpected token in expression"

/-- The postfix loop of `Parser::parsePostfix`: any number of call and
member-access suffixes applied to the accumulated expression. -/
def parsePostfixLoop : Nat → ExprNode → PSt → Except String (ExprNode × PSt)
  | 0, _, _ => .error fuelMsg
  | n+1, e, st =>
    let pLp := pMatch st .lparen
    if pLp.1 then do
      let ap ← parseExpression n pLp.2
      let st3 ← expect ap.2 .rparen "Expected ')'"
      parsePostfixLoop n (.call e ap.1) st3
    else
      let pDot := pMatch st .dot
      if pDot.1 then do
        let member := pDot.2.cur.value
        let st2 ← expect pDot.2 .identifier "Expected member name"
        parsePostfixLoop n (.memberAccess e member) st2
      else .ok (e, st)

/-- `Parser::parsePostfix`: a primary followed by postfix suffixes. -/
def parsePostfixExpr : Nat → PSt → Except String (ExprNode × PSt)
  | 0, _ => .error fuelMsg
  | n+1, st => do
    let ep ← parsePrimary n st
    parsePostfixLoop n ep.1 ep.2

/-- The `*`/`/` loop of `Parser::parseMultiplicative` (left-associative). -/
def parseMulLoop : Nat → ExprNode → PSt → Except String (ExprNode × PSt)
  | 0, _, _ => .error fuelMsg
  | n+1, left, st =>
    if st.cur.type = .multiply ∨ st.cur.type = .divide then do
      let op := if st.cur.type = .multiply then OpType.mul else OpType.div
      let rp ← parsePostfixExpr n st.advance
      parseMulLoop n (.binaryOp op left rp.1) rp.2
    else .ok (left, st)

/-- `Parser::parseMultiplicative`. -/
def parseMultiplicative : Nat → PSt → Except String (ExprNode × PSt)
  | 0, _ => .error fuelMsg
  | n+1, st => do
    let lp ← parsePostfixExpr n st
    parseMulLoop n lp.1 lp.2

/-- The `+`/`-` loop of `Parser::parseAdditive` (left-associative). -/
def parseAddLoop : Nat → ExprNode → PSt → Except String (ExprNode × PSt)
  | 0, _, _ => .error fuelMsg
  | n+1, left, st =>
    if st.cur.type = .plus ∨ st.cur.type = .minus then do
      let op := if st.cur.type = .plus then OpType.add else OpType.sub
      let rp ← parseMultiplicative n st.advance
      parseAddLoop n (.binaryOp op left rp.1) rp.2
    else .ok (left, st)

/-- `Parser::parseAdditive`. -/
def parseAdditive : Nat → PSt → Except String (ExprNode × PSt)
  | 0, _ => .error fuelMsg
  | n+1, st => do
    let lp ← parseMultiplicative n st
    parseAddLoop n lp.1 lp.2

/-- The comparison-operator loop of `Parser::parseComparison`; the
`default` arm of the C++ `switch` ("Unknown operator") is unreachable under
the loop condition but modelled faithfully. -/
def parseCmpLoop : Nat → ExprNode → PSt → Except String (ExprNode × PSt)
  | 0, _, _ => .error fuelMsg
  | n+1, left, st =>
    if st.cur.type = .less ∨ st.cur.type = .greater ∨ st.cur.type = .lessEqual
        ∨ st.cur.type = .greaterEqual ∨ st.cur.type = .equal ∨ st.cur.type = .notEqual then do
      let op ← (match st.cur.type with
        | .less => .ok OpType.lt
        | .greater => .ok OpType.gt
        | .lessEqual => .ok OpType.le
        | .greaterEqual => .ok OpType.ge
        | .equal => .ok OpType.eq
        | .notEqual => .ok OpType.neq
        | _ => .error "Unknown operator")
      let rp ← parseAdditive n st.advance
      parseCmpLoop n (.binaryOp op left rp.1) rp.2
    else .ok (left, st)

/-- `Parser::parseComparison`. -/
def parseComparison : Nat → PSt → Except String (ExprNode × PSt)
  | 0, _ => .error fuelMsg
  | n+1, st => do
    let lp ← parseAdditive n st
    parseCmpLoop n lp.1 lp.2

/-- `Parser::parseExpression`: delegates to the comparison level. -/
def parseExpression : Nat → PSt → Except String (ExprNode × PSt)
  | 0, _ => .error fuelMsg
  | n+1, st => parseComparison n st

/-- The `while (!match(RBrace))` body-collection loops of the function /
at-function / if / while grammar rules. -/
def parseStmtList : Nat → PSt → Except String (List ASTNode × PSt)
  | 0, _ => .error fuelMsg
  | n+1, st =>
    let pRb := pMatch st .rbrace
    if pRb.1 then .ok ([], pRb.2)
    else do
      let sp ← parseStatement n pRb.2
      let rp ← parseStmtList n sp.2
      .ok (sp.1 :: rp.1, rp.2)

/-- `Parser::parseStatement`: dispatch on the current token kind. -/
def parseStatement : Nat → PSt → Except String (ASTNode × PSt)
  | 0, _ => .error fuelMsg
  | n+1, st =>
    let ty := st.cur.type
    if ty = .entjera ∨ ty = .reala ∨ ty = .teksta ∨ ty = .bulea ∨ ty = .funkcia then do
      let tp ← parseType st
      let name := tp.2.cur.value
      let st2 ← expect tp.2 .identifier "Expected variable name"
      let pAs := pMatch st2 .assign
      if pAs.1 then do
        let ip ← parseExpression n pAs.2
        let st5 ← expect ip.2 .semicolon "Expected ';'"
        .ok (.stmt (.varDecl name tp.1 (some ip.1)), st5)
      else do
        let st5 ← expect pAs.2 .semicolon "Expected ';'"
        .ok (.stmt (.varDecl name tp.1 none), st5)
    else
      let pFun := pMatch st .funkcio
      if pFun.1 then do
        let name := pFun.2.cur.value
        let st2 ← expect pFun.2 .identifier "Expected function name"
        let st3 ← expect st2 .lparen "Expected '('"
        let tp ← parseType st3
        let paramName := tp.2.cur.value
        let st5 ← expect tp.2 .identifier "Expected parameter name"
        let st6 ← expect st5 .rparen "Expected ')'"
        let rp ← parseType st6
        let st8 ← expect rp.2 .lbrace "Expected '\x7b'"
        let bp ← parseStmtList n st8
        .ok (.stmt (.functionDecl name paramName tp.1 rp.1 bp.1), bp.2)
      else
        let pRev := pMatch st .reveni
        if pRev.1 then do
          let vp ← parseExpression n pRev.2
          let st3 ← expect vp.2 .semicolon "Expected ';'"
          .ok (.stmt (.ret vp.1), st3)
        else
          let pSe := pMatch st .se
          if pSe.1 then do
            let st2 ← expect pSe.2 .lparen "Expected '('"
            let cp ← parseExpression n st2
            let st4 ← expect cp.2 .rparen "Expected ')'"
            let st5 ← expect st4 .lbrace "Expected '\x7b'"
            let tb ← parseStmtList n st5
            let pAl := pMatch tb.2 .alie
            if pAl.1 then do
              let st8 ← expect pAl.2 .lbrace "Expected '\x7b'"
              let eb ← parseStmtList n st8
              .ok (.stmt (.ifStmt cp.1 tb.1 eb.1), eb.2)
            else .ok (.stmt (.ifStmt cp.1 tb.1 []), pAl.2)
          else
            let pDum := pMatch st .dum
            if pDum.1 then do
              let st2 ← expect pDum.2 .lparen "Expected '('"
              let cp ← parseExpression n st2
              let st4 ← expect cp.2 .rparen "Expected ')'"
              let st5 ← expect st4 .lbrace "Expected '\x7b"
              let bp ← parseStmtList n st5
              .ok (.stmt (.whileStmt cp.1 bp.1), bp.2)
            else do
              let ep ← parseExpression n st
              match ep.1 with
              | .varRef vname =>
                let pAs2 := pMatch ep.2 .assign
                if pAs2.1 then do
                  let vp ← parseExpression n pAs2.2
                  let st4 ← expect vp.2 .semicolon "Expected ';'"
                  .ok (.stmt (.assign vname vp.1), st4)
                else do
                  let st4 ← expect ep.2 .semicolon "Expected ';'"
                  .ok (.expr ep.1, st4)
              | _ => do
                let st4 ← expect ep.2 .semicolon "Expected ';'"
                .ok (.expr ep.1, st4)

/-- The `while (current != EndOfFile)` loop of `Parser::parse`. -/
def parseProgramLoop : Nat → PSt → Except String (List ASTNode × PSt)
  | 0, _ => .error fuelMsg
  | n+1, st =>
    if st.cur.type = .endOfFile then .ok ([], st)
    else do
      let sp ← parseStatement n st
      let rp ← parseProgramLoop n sp.2
      .ok (sp.1 :: rp.1, rp.2)
end

/-- `Parser::parse` on a token list: the `ProgramNode`'s statement list.
The fuel bounds the recursion depth; `(length + 2) * 8` is comfortably
beyond the call-chain depth per consumed token. -/
def parseProgram (ts : List Token) : Except String (List ASTNode) :=
  (parseProgramLoop ((ts.length + 2) * 8) ⟨ts, 0⟩).map (fun p => p.1)

/-- The driver pipeline: tokenize, then parse (`tokenize` never actually
returns `none`; see the fuel-sufficiency theorem). -/
def parseSource (s : String) : Except String (List ASTNode) :=
  match tokenize s with
  | some ts => parseProgram ts
  | none => .error fuelMsg

/-!
Boolean structural-equality functions on the AST, kernel-computable, with
soundness lemmas converting a `true` result into a propositional equality.
They exist only to let concrete parse results be checked by `decide`.
-/

/-- Pointwise equality test on `Option`. -/
def optBeqBy {α : Type} (f : α → α → Bool) : Option α → Option α → Bool
  | none, none => true
  | some a, some b => f a b
  | _, _ => false

/-- Pointwise equality test on `Except String` (errors compared as strings). -/
def exceptBeqBy {α : Type} (f : α → α → Bool) : Except String α → Except String α → Bool
  | .ok a, .ok b => f a b
  | .error a, .error b => a == b
  | _, _ => false

mutual
/-- Structural equality on `Ty`. -/
def tyBeq : Ty → Ty → Bool
  | .mk k1 r1 p1 c1, .mk k2 r2 p2 c2 =>
    k1 == k2 && tyOptBeq r1 r2 && tyOptBeq p1 p2 && c1 == c2
termination_by structural t _ => t
/-- Structural equality on `Option Ty`. -/
def tyOptBeq : Option Ty → Option Ty → Bool
  | none, none => true
  | some a, some b => tyBeq a b
  | _, _ => false
termination_by structural t _ => t
end

mutual
/-- Structural equality on `ExprNode`. -/
def exprBeq : ExprNode → ExprNode → Bool
  | .numberLiteral v1 i1, .numberLiteral v2 i2 => v1 == v2 && i1 == i2
  | .stringLiteral v1, .stringLiteral v2 => v1 == v2
  | .boolLiteral b1, .boolLiteral b2 => b1 == b2
  | .varRef n1, .varRef n2 => n1 == n2
  | .binaryOp o1 l1 r1, .binaryOp o2 l2 r2 => o1 == o2 && exprBeq l1 l2 && exprBeq r1 r2
  | .call f1 a1, .call f2 a2 => exprBeq f1 f2 && exprBeq a1 a2
  | .atFunction p1 pt1 rt1 b1, .atFunction p2 pt2 rt2 b2 =>
    p1 == p2 && tyBeq pt1 pt2 && tyBeq rt1 rt2 && astListBeq b1 b2
  | .memberAccess o1 m1, .memberAccess o2 m2 => exprBeq o1 o2 && m1 == m2
  | _, _ => false
termination_by structural e _ => e
/-- Structural equality on `Option ExprNode`. -/
def exprOptBeq : Option ExprNode → Option ExprNode → Bool
  | none, none => true
  | some a, some b => exprBeq a b
  | _, _ => false
termination_by structural e _ => e
/-- Structural equality on `StmtNode`. -/
def stmtBeq : StmtNode → StmtNode → Bool
  | .varDecl n1 t1 i1, .varDecl n2 t2 i2 => n1 == n2 && tyBeq t1 t2 && exprOptBeq i1 i2
  | .assign n1 v1, .assign n2 v2 => n1 == n2 && exprBeq v1 v2
  | .functionDecl n1 p1 pt1 rt1 b1, .functionDecl n2 p2 pt2 rt2 b2 =>
    n1 == n2 && p1 == p2 && tyBeq pt1 pt2 && tyBeq rt1 rt2 && astListBeq b1 b2
  | .ret v1, .ret v2 => exprBeq v1 v2
  | .ifStmt c1 t1 e1, .ifStmt c2 t2 e2 => exprBeq c1 c2 && astListBeq t1 t2 && astListBeq e1 e2
  | .whileStmt c1 b1, .whileStmt c2 b2 => exprBeq c1 c2 && astListBeq b1 b2
  | .classDecl n1 f1 m1, .classDecl n2 f2 m2 =>
    n1 == n2 && stmtListBeq f1 f2 && stmtListBeq m1 m2
  | _, _ => false
termination_by structural s _ => s
/-- Structural equality on `ASTNode`. -/
def astBeq : ASTNode → ASTNode → Bool
  | .expr e1, .expr e2 => exprBeq e1 e2
  | .stmt s1, .stmt s2 => stmtBeq s1 s2
  | _, _ => false
termination_by structural a _ => a
/-- Structural equality on `List ASTNode`. -/
def astListBeq : List ASTNode → List ASTNode → Bool
  | [], [] => true
  | a :: r, b :: t => astBeq a b && astListBeq r t
  | _, _ => false
termination_by structural l _ => l
/-- Structural equality on `List StmtNode`. -/
def stmtListBeq : List StmtNode → List StmtNode → Bool
  | [], [] => true
  | a :: r, b :: t => stmtBeq a b && stmtListBeq r t
  | _, _ => false
termination_by structural l _ => l
end

theorem optBeqBy_sound {α : Type} (f : α → α → Bool)
    (hf : ∀ a b, f a b = true → a = b) :
    ∀ o1 o2, optBeqBy f o1 o2 = true → o1 = o2 := by
  intro o1 o2 h
  cases o1 <;> cases o2 <;> simp [optBeqBy] at h ⊢
  exact hf _ _ h

theorem exceptBeqBy_sound {α : Type} (f : α → α → Bool)
    (hf : ∀ a b, f a b = true → a = b) :
    ∀ r1 r2, exceptBeqBy f r1 r2 = true → r1 = r2 := by
  intro r1 r2 h
  cases r1 <;> cases r2 <;> simp [exceptBeqBy] at h ⊢
  · exact h
  · exact hf _ _ h

mutual
theorem tyBeq_sound : ∀ a b, tyBeq a b = true → a = b
  | .mk k1 r1 p1 c1, .mk k2 r2 p2 c2, h => by
    simp only [tyBeq, Bool.and_eq_true, beq_iff_eq] at h
    obtain ⟨⟨⟨hk, hr⟩, hp⟩, hc⟩ := h
    rw [hk, hc, tyOptBeq_sound r1 r2 hr, tyOptBeq_sound p1 p2 hp]
theorem tyOptBeq_sound : ∀ a b, tyOptBeq a b = true → a = b
  | none, none, _ => rfl
  | some a, some b, h => by
    rw [tyBeq_sound a b (by simpa [tyOptBeq] using h)]
  | none, some _, h => by simp [tyOptBeq] at h
  | some _, none, h => by simp [tyOptBeq] at h
end

mutual
theorem exprBeq_sound : ∀ a b, exprBeq a b = true → a = b
  | .numberLiteral v1 i1, .numberLiteral v2 i2, h => by
    replace h : (v1 == v2 && i1 == i2) = true := h
    simp only [Bool.and_eq_true, beq_iff_eq] at h
    rw [h.1, h.2]
  | .stringLiteral v1, .stringLiteral v2, h => by
    replace h : (v1 == v2) = true := h
    rw [eq_of_beq h]
  | .boolLiteral b1, .boolLiteral b2, h => by
    replace h : (b1 == b2) = true := h
    rw [eq_of_beq h]
  | .varRef n1, .varRef n2, h => by
    replace h : (n1 == n2) = true := h
    rw [eq_of_beq h]
  | .binaryOp o1 l1 r1, .binaryOp o2 l2 r2, h => by
    replace h : (o1 == o2 && exprBeq l1 l2 && exprBeq r1 r2) = true := h
    simp only [Bool.and_eq_true, beq_iff_eq] at h
    obtain ⟨⟨ho, hl⟩, hr⟩ := h
    rw [ho, exprBeq_sound l1 l2 hl, exprBeq_sound r1 r2 hr]
  | .call f1 a1, .call f2 a2, h => by
    replace h : (exprBeq f1 f2 && exprBeq a1 a2) = true := h
    simp only [Bool.and_eq_true] at h
    rw [exprBeq_sound f1 f2 h.1, exprBeq_sound a1 a2 h.2]
  | .atFunction p1 pt1 rt1 b1, .atFunction p2 pt2 rt2 b2, h => by
    replace h : (p1 == p2 && tyBeq pt1 pt2 && tyBeq rt1 rt2 && astListBeq b1 b2) = true := h
    simp only [Bool.and_eq_true, beq_iff_eq] at h
    obtain ⟨⟨⟨hp, hpt⟩, hrt⟩, hb⟩ := h
    rw [hp, tyBeq_sound pt1 pt2 hpt, tyBeq_sound rt1 rt2 hrt, astListBeq_sound b1 b2 hb]
  | .memberAccess o1 m1, .memberAccess o2 m2, h => by
    replace h : (exprBeq o1 o2 && m1 == m2) = true := h
    simp only [Bool.and_eq_true, beq_iff_eq] at h
    rw [h.2, exprBeq_sound o1 o2 h.1]
  | .numberLiteral _ _, .stringLiteral _, h => nomatch h
  | .numberLiteral _ _, .boolLiteral _, h => nomatch h
  | .numberLiteral _ _, .varRef _, h => nomatch h
  | .numberLiteral _ _, .binaryOp _ _ _, h => nomatch h
  | .numberLiteral _ _, .call _ _, h => nomatch h
  | .numberLiteral _ _, .atFunction _ _ _ _, h => nomatch h
  | .numberLiteral _ _, .memberAccess _ _, h => nomatch h
  | .stringLiteral _, .numberLiteral _ _, h => nomatch h
  | .stringLiteral _, .boolLiteral _, h => nomatch h
  | .stringLiteral _, .varRef _, h => nomatch h
  | .stringLiteral _, .binaryOp _ _ _, h => nomatch h
  | .stringLiteral _, .call _ _, h => nomatch h
  | .stringLiteral _, .atFunction _ _ _ _, h => nomatch h
  | .stringLiteral _, .memberAccess _ _, h => nomatch h
  | .boolLiteral _, .numberLiteral _ _, h => nomatch h
  | .boolLiteral _, .stringLiteral _, h => nomatch h
  | .boolLiteral _, .varRef _, h => nomatch h
  | .boolLiteral _, .binaryOp _ _ _, h => nomatch h
  | .boolLiteral _, .call _ _, h => nomatch h
  | .boolLiteral _, .atFunction _ _ _ _, h => nomatch h
  | .boolLiteral _, .memberAccess _ _, h => nomatch h
  | .varRef _, .numberLiteral _ _, h => nomatch h
  | .varRef _, .stringLiteral _, h => nomatch h
  | .varRef _, .boolLiteral _, h => nomatch h
  | .varRef _, .binaryOp _ _ _, h => nomatch h
  | .varRef _, .call _ _, h => nomatch h
  | .varRef _, .atFunction _ _ _ _, h => nomatch h
  | .varRef _, .memberAccess _ _, h => nomatch h
  | .binaryOp _ _ _, .numberLiteral _ _, h => nomatch h
  | .binaryOp _ _ _, .stringLiteral _, h => nomatch h
  | .binaryOp _ _ _, .boolLiteral _, h => nomatch h
  | .binaryOp _ _ _, .varRef _, h => nomatch h
  | .binaryOp _ _ _, .call _ _, h => nomatch h
  | .binaryOp _ _ _, .atFunction _ _ _ _, h => nomatch h
  | .binaryOp _ _ _, .memberAccess _ _, h => nomatch h
  | .call _ _, .numberLiteral _ _, h => nomatch h
  | .call _ _, .stringLiteral _, h => nomatch h
  | .call _ _, .boolLiteral _, h => nomatch h
  | .call _ _, .varRef _, h => nomatch h
  | .call _ _, .binaryOp _ _ _, h => nomatch h
  | .call _ _, .atFunction _ _ _ _, h => nomatch h
  | .call _ _, .memberAccess _ _, h => nomatch h
  | .atFunction _ _ _ _, .numberLiteral _ _, h => nomatch h
  | .atFunction _ _ _ _, .stringLiteral _, h => nomatch h
  | .atFunction _ _ _ _, .boolLiteral _, h => nomatch h
  | .atFunction _ _ _ _, .varRef _, h => nomatch h
  | .atFunction _ _ _ _, .binaryOp _ _ _, h => nomatch h
  | .atFunction _ _ _ _, .call _ _, h => nomatch h
  | .atFunction _ _ _ _, .memberAccess _ _, h => nomatch h
  | .memberAccess _ _, .numberLiteral _ _, h => nomatch h
  | .memberAccess _ _, .stringLiteral _, h => nomatch h
  | .memberAccess _ _, .boolLiteral _, h => nomatch h
  | .memberAccess _ _, .varRef _, h => nomatch h
  | .memberAccess _ _, .binaryOp _ _ _, h => nomatch h
  | .memberAccess _ _, .call _ _, h => nomatch h
  | .memberAccess _ _, .atFunction _ _ _ _, h => nomatch h
theorem exprOptBeq_sound : ∀ a b, exprOptBeq a b = true → a = b
  | none, none, _ => rfl
  | some a, some b, h => by rw [exprBeq_sound a b h]
  | none, some _, h => nomatch h
  | some _, none, h => nomatch h
theorem stmtBeq_sound : ∀ a b, stmtBeq a b = true → a = b
  | .varDecl n1 t1 i1, .varDecl n2 t2 i2, h => by
    replace h : (n1 == n2 && tyBeq t1 t2 && exprOptBeq i1 i2) = true := h
    simp only [Bool.and_eq_true, beq_iff_eq] at h
    obtain ⟨⟨hn, ht⟩, hi⟩ := h
    rw [hn, tyBeq_sound t1 t2 ht, exprOptBeq_sound i1 i2 hi]
  | .assign n1 v1, .assign n2 v2, h => by
    replace h : (n1 == n2 && exprBeq v1 v2) = true := h
    simp only [Bool.and_eq_true, beq_iff_eq] at h
    rw [h.1, exprBeq_sound v1 v2 h.2]
  | .functionDecl n1 p1 pt1 rt1 b1, .functionDecl n2 p2 pt2 rt2 b2, h => by
    replace h : (n1 == n2 && p1 == p2 && tyBeq pt1 pt2 && tyBeq rt1 rt2 && astListBeq b1 b2) = true := h
    simp only [Bool.and_eq_true, beq_iff_eq] at h
    obtain ⟨⟨⟨⟨hn, hp⟩, hpt⟩, hrt⟩, hb⟩ := h
    rw [hn, hp, tyBeq_sound pt1 pt2 hpt, tyBeq_sound rt1 rt2 hrt, astListBeq_sound b1 b2 hb]
  | .ret v1, .ret v2, h => by
    replace h : exprBeq v1 v2 = true := h
    rw [exprBeq_sound v1 v2 h]
  | .ifStmt c1 t1 e1, .ifStmt c2 t2 e2, h => by
    replace h : (exprBeq c1 c2 && astListBeq t1 t2 && astListBeq e1 e2) = true := h
    simp only [Bool.and_eq_true] at h
    obtain ⟨⟨hc, ht⟩, he⟩ := h
    rw [exprBeq_sound c1 c2 hc, astListBeq_sound t1 t2 ht, astListBeq_sound e1 e2 he]
  | .whileStmt c1 b1, .whileStmt c2 b2, h => by
    replace h : (exprBeq c1 c2 && astListBeq b1 b2) = true := h
    simp only [Bool.and_eq_true] at h
    rw [exprBeq_sound c1 c2 h.1, astListBeq_sound b1 b2 h.2]
  | .classDecl n1 f1 m1, .classDecl n2 f2 m2, h => by
    replace h : (n1 == n2 && stmtListBeq f1 f2 && stmtListBeq m1 m2) = true := h
    simp only [Bool.and_eq_true, beq_iff_eq] at h
    obtain ⟨⟨hn, hf⟩, hm⟩ := h
    rw [hn, stmtListBeq_sound f1 f2 hf, stmtListBeq_sound m1 m2 hm]
  | .varDecl _ _ _, .assign _ _, h => nomatch h
  | .varDecl _ _ _, .functionDecl _ _ _ _ _, h => nomatch h
  | .varDecl _ _ _, .ret _, h => nomatch h
  | .varDecl _ _ _, .ifStmt _ _ _, h => nomatch h
  | .varDecl _ _ _, .whileStmt _ _, h => nomatch h
  | .varDecl _ _ _, .classDecl _ _ _, h => nomatch h
  | .assign _ _, .varDecl _ _ _, h => nomatch h
  | .assign _ _, .functionDecl _ _ _ _ _, h => nomatch h
  | .assign _ _, .ret _, h => nomatch h
  | .assign _ _, .ifStmt _ _ _, h => nomatch h
  | .assign _ _, .whileStmt _ _, h => nomatch h
  | .assign _ _, .classDecl _ _ _, h => nomatch h
  | .functionDecl _ _ _ _ _, .varDecl _ _ _, h => nomatch h
  | .functionDecl _ _ _ _ _, .assign _ _, h => nomatch h
  | .functionDecl _ _ _ _ _, .ret _, h => nomatch h
  | .functionDecl _ _ _ _ _, .ifStmt _ _ _, h => nomatch h
  | .functionDecl _ _ _ _ _, .whileStmt _ _, h => nomatch h
  | .functionDecl _ _ _ _ _, .classDecl _ _ _, h => nomatch h
  | .ret _, .varDecl _ _ _, h => nomatch h
  | .ret _, .assign _ _, h => nomatch h
  | .ret _, .functionDecl _ _ _ _ _, h => nomatch h
  | .ret _, .ifStmt _ _ _, h => nomatch h
  | .ret _, .whileStmt _ _, h => nomatch h
  | .ret _, .classDecl _ _ _, h => nomatch h
  | .ifStmt _ _ _, .varDecl _ _ _, h => nomatch h
  | .ifStmt _ _ _, .assign _ _, h => nomatch h
  | .ifStmt _ _ _, .functionDecl _ _ _ _ _, h => nomatch h
  | .ifStmt _ _ _, .ret _, h => nomatch h
  | .ifStmt _ _ _, .whileStmt _ _, h => nomatch h
  | .ifStmt _ _ _, .classDecl _ _ _, h => nomatch h
  | .whileStmt _ _, .varDecl _ _ _, h => nomatch h
  | .whileStmt _ _, .assign _ _, h => nomatch h
  | .whileStmt _ _, .functionDecl _ _ _ _ _, h => nomatch h
  | .whileStmt _ _, .ret _, h => nomatch h
  | .whileStmt _ _, .ifStmt _ _ _, h => nomatch h
  | .whileStmt _ _, .classDecl _ _ _, h => nomatch h
  | .classDecl _ _ _, .varDecl _ _ _, h => nomatch h
  | .classDecl _ _ _, .assign _ _, h => nomatch h
  | .classDecl _ _ _, .functionDecl _ _ _ _ _, h => nomatch h
  | .classDecl _ _ _, .ret _, h => nomatch h
  | .classDecl _ _ _, .ifStmt _ _ _, h => nomatch h
  | .classDecl _ _ _, .whileStmt _ _, h => nomatch h
theorem astBeq_sound : ∀ a b, astBeq a b = true → a = b
  | .expr e1, .expr e2, h => by rw [exprBeq_sound e1 e2 h]
  | .stmt s1, .stmt s2, h => by rw [stmtBeq_sound s1 s2 h]
  | .expr _, .stmt _, h => nomatch h
  | .stmt _, .expr _, h => nomatch h
theorem astListBeq_sound : ∀ a b, astListBeq a b = true → a = b
  | [], [], _ => rfl
  | a :: r, b :: t, h => by
    replace h : (astBeq a b && astListBeq r t) = true := h
    simp only [Bool.and_eq_true] at h
    rw [astBeq_sound a b h.1, astListBeq_sound r t h.2]
  | [], _ :: _, h => nomatch h
  | _ :: _, [], h => nomatch h
theorem stmtListBeq_sound : ∀ a b, stmtListBeq a b = true → a = b
  | [], [], _ => rfl
  | a :: r, b :: t, h => by
    replace h : (stmtBeq a b && stmtListBeq r t) = true := h
    simp only [Bool.and_eq_true] at h
    rw [stmtBeq_sound a b h.1, stmtListBeq_sound r t h.2]
  | [], _ :: _, h => nomatch h
  | _ :: _, [], h => nomatch h
end

/-- Convert a kernel-checked `exceptBeqBy astListBeq` result on two parse
results into a propositional equality. -/
theorem parseResEq (r1 r2 : Except String (List ASTNode))
    (h : exceptBeqBy astListBeq r1 r2 = true) : r1 = r2 :=
  exceptBeqBy_sound astListBeq astListBeq_sound r1 r2 h

/-- Convert a kernel-checked expression-level comparison into an equality. -/
theorem exprResEq (r1 r2 : Except String ExprNode)
    (h : exceptBeqBy exprBeq r1 r2 = true) : r1 = r2 :=
  exceptBeqBy_sound exprBeq exprBeq_sound r1 r2 h

/-!
Progress facts for the tokenizer: every loop consumes characters, never
producing a longer remainder, and each main-loop iteration consumes at
least one character, so source-length fuel suffices.
-/

theorem LexSt.advance_src (st : LexSt) : st.advance.src = st.src.tail := by
  unfold LexSt.advance
  split <;> rfl

theorem LexSt.advance_src_length_le (st : LexSt) : st.advance.src.length ≤ st.src.length := by
  rw [st.advance_src, List.length_tail]
  omega

theorem LexSt.advance_src_length_lt (st : LexSt) (h : st.src ≠ []) :
    st.advance.src.length < st.src.length := by
  rw [st.advance_src, List.length_tail]
  have := List.length_pos.mpr h
  omega

theorem LexSt.src_ne_nil (st : LexSt) (h : st.cur ≠ nulChar) : st.src ≠ [] := by
  intro hnil
  apply h
  simp [LexSt.cur, hnil]

theorem LexSt.advance_line_of_ne (st : LexSt) (h : st.cur ≠ '\n') :
    st.advance.line = st.line := by
  unfold LexSt.advance
  rw [if_neg h]

theorem skipWhitespaceAux_length_le :
    ∀ (cs : List Char) (l co : Nat), (skipWhitespaceAux cs l co).src.length ≤ cs.length := by
  intro cs
  induction cs with
  | nil => intro l co; simp [skipWhitespaceAux]
  | cons c rest ih =>
    intro l co
    simp only [skipWhitespaceAux]
    split
    · split
      · exact le_trans (ih _ _) (by simp)
      · exact le_trans (ih _ _) (by simp)
    · simp

theorem skipLineAux_length_le :
    ∀ (cs : List Char) (l co : Nat), (skipLineAux cs l co).src.length ≤ cs.length := by
  intro cs
  induction cs with
  | nil => intro l co; simp [skipLineAux]
  | cons c rest ih =>
    intro l co
    simp only [skipLineAux]
    split
    · simp
    · exact le_trans (ih _ _) (by simp)

theorem readNumberAux_length_le :
    ∀ (cs : List Char) (l co : Nat) (acc : List Char) (f : Bool),
      (readNumberAux cs l co acc f).2.src.length ≤ cs.length := by
  intro cs
  induction cs with
  | nil => intro l co acc f; simp [readNumberAux]
  | cons c rest ih =>
    intro l co acc f
    simp only [readNumberAux]
    split
    · split
      · split
        · simp
        · exact le_trans (ih _ _ _ _) (by simp)
      · exact le_trans (ih _ _ _ _) (by simp)
    · simp

theorem readStringAux_length_le :
    ∀ (cs : List Char) (l co : Nat) (acc : List Char),
      (readStringAux cs l co acc).2.src.length ≤ cs.length
  | [], _, _, _ => Nat.le.refl
  | c :: rest, l, co, acc => by
    unfold readStringAux
    split
    · simp
    · split
      · cases rest with
        | nil => simp
        | cons d rest2 =>
          dsimp only
          split
          · exact le_trans (readStringAux_length_le rest2 _ _ _)
              (by simp only [List.length_cons]; omega)
          · exact le_trans (readStringAux_length_le rest2 _ _ _)
              (by simp only [List.length_cons]; omega)
      · split
        · exact le_trans (readStringAux_length_le rest _ _ _)
            (by simp only [List.length_cons]; omega)
        · exact le_trans (readStringAux_length_le rest _ _ _)
            (by simp only [List.length_cons]; omega)

theorem readIdentifierAux_length_le :
    ∀ (cs : List Char) (l co : Nat) (acc : List Char),
      (readIdentifierAux cs l co acc).2.src.length ≤ cs.length := by
  intro cs
  induction cs with
  | nil => intro l co acc; simp [readIdentifierAux]
  | cons c rest ih =>
    intro l co acc
    unfold readIdentifierAux
    split
    · exact le_trans (ih _ _ _) (by simp)
    · simp

/-- Characterization of the operator `switch`: it yields a kind other than
end-of-input, and leaves the cursor either unmoved or advanced past a
non-newline character (the first of a two-character operator). -/
theorem readOperator_spec (st : LexSt) :
    (readOperator st).1 ≠ .endOfFile ∧
    ((readOperator st).2.2 = st ∨
      ((readOperator st).2.2 = st.advance ∧ ¬(st.cur = '\n'))) := by
  unfold readOperator
  by_cases h1 : st.cur = '+'
  · rw [if_pos h1]
    exact ⟨by intro hh; exact TokenType.noConfusion hh, Or.inl rfl⟩
  by_cases h2 : st.cur = '-'
  · rw [if_neg h1, if_pos h2]
    exact ⟨by intro hh; exact TokenType.noConfusion hh, Or.inl rfl⟩
  by_cases h3 : st.cur = '*'
  · rw [if_neg h1, if_neg h2, if_pos h3]
    exact ⟨by intro hh; exact TokenType.noConfusion hh, Or.inl rfl⟩
  by_cases h4 : st.cur = '/'
  · rw [if_neg h1, if_neg h2, if_neg h3, if_pos h4]
    exact ⟨by intro hh; exact TokenType.noConfusion hh, Or.inl rfl⟩
  by_cases h5 : st.cur = '('
  · rw [if_neg h1, if_neg h2, if_neg h3, if_neg h4, if_pos h5]
    exact ⟨by intro hh; exact TokenType.noConfusion hh, Or.inl rfl⟩
  by_cases h6 : st.cur = ')'
  · rw [if_neg h1, if_neg h2, if_neg h3, if_neg h4, if_neg h5, if_pos h6]
    exact ⟨by intro hh; exact TokenType.noConfusion hh, Or.inl rfl⟩
  by_cases h7 : st.cur = '\x7b'
  · rw [if_neg h1, if_neg h2, if_neg h3, if_neg h4, if_neg h5, if_neg h6, if_pos h7]
    exact ⟨by intro hh; exact TokenType.noConfusion hh, Or.inl rfl⟩
  by_cases h8 : st.cur = '\x7d'
  · rw [if_neg h1, if_neg h2, if_neg h3, if_neg h4, if_neg h5, if_neg h6, if_neg h7, if_pos h8]
    exact ⟨by intro hh; exact TokenType.noConfusion hh, Or.inl rfl⟩
  by_cases h9 : st.cur = ';'
  · rw [if_neg h1, if_neg h2, if_neg h3, if_neg h4, if_neg h5, if_neg h6, if_neg h7, if_neg h8, if_pos h9]
    exact ⟨by intro hh; exact TokenType.noConfusion hh, Or.inl rfl⟩
  by_cases h10 : st.cur = ','
  · rw [if_neg h1, if_neg h2, if_neg h3, if_neg h4, if_neg h5, if_neg h6, if_neg h7, if_neg h8, if_neg h9, if_pos h10]
    exact ⟨by intro hh; exact TokenType.noConfusion hh, Or.inl rfl⟩
  by_cases h11 : st.cur = '@'
  · rw [if_neg h1, if_neg h2, if_neg h3, if_neg h4, if_neg h5, if_neg h6, if_neg h7, if_neg h8, if_neg h9, if_neg h10, if_pos h11]
    exact ⟨by intro hh; exact TokenType.noConfusion hh, Or.inl rfl⟩
  by_cases h12 : st.cur = '.'
  · rw [if_neg h1, if_neg h2, if_neg h3, if_neg h4, if_neg h5, if_neg h6, if_neg h7, if_neg h8, if_neg h9, if_neg h10, if_neg h11, if_pos h12]
    exact ⟨by intro hh; exact TokenType.noConfusion hh, Or.inl rfl⟩
  by_cases h13 : st.cur = '='
  · by_cases hp : st.peek1 = '='
    · rw [if_neg h1, if_neg h2, if_neg h3, if_neg h4, if_neg h5, if_neg h6, if_neg h7, if_neg h8, if_neg h9, if_neg h10, if_neg h11, if_neg h12, if_pos h13, if_pos hp]
      exact ⟨by intro hh; exact TokenType.noConfusion hh, Or.inr ⟨rfl, by rw [h13]; decide⟩⟩
    · rw [if_neg h1, if_neg h2, if_neg h3, if_neg h4, if_neg h5, if_neg h6, if_neg h7, if_neg h8, if_neg h9, if_neg h10, if_neg h11, if_neg h12, if_pos h13, if_neg hp]
      exact ⟨by intro hh; exact TokenType.noConfusion hh, Or.inl rfl⟩
  by_cases h14 : st.cur = '!'
  · by_cases hp : st.peek1 = '='
    · rw [if_neg h1, if_neg h2, if_neg h3, if_neg h4, if_neg h5, if_neg h6, if_neg h7, if_neg h8, if_neg h9, if_neg h10, if_neg h11, if_neg h12, if_neg h13, if_pos h14, if_pos hp]
      exact ⟨by intro hh; exact TokenType.noConfusion hh, Or.inr ⟨rfl, by rw [h14]; decide⟩⟩
    · rw [if_neg h1, if_neg h2, if_neg h3, if_neg h4, if_neg h5, if_neg h6, if_neg h7, if_neg h8, if_neg h9, if_neg h10, if_neg h11, if_neg h12, if_neg h13, if_pos h14, if_neg hp]
      exact ⟨by intro hh; exact TokenType.noConfusion hh, Or.inl rfl⟩
  by_cases h15 : st.cur = '<'
  · by_cases hp : st.peek1 = '='
    · rw [if_neg h1, if_neg h2, if_neg h3, if_neg h4, if_neg h5, if_neg h6, if_neg h7, if_neg h8, if_neg h9, if_neg h10, if_neg h11, if_neg h12, if_neg h13, if_neg h14, if_pos h15, if_pos hp]
      exact ⟨by intro hh; exact TokenType.noConfusion hh, Or.inr ⟨rfl, by rw [h15]; decide⟩⟩
    · rw [if_neg h1, if_neg h2, if_neg h3, if_neg h4, if_neg h5, if_neg h6, if_neg h7, if_neg h8, if_neg h9, if_neg h10, if_neg h11, if_neg h12, if_neg h13, if_neg h14, if_pos h15, if_neg hp]
      exact ⟨by intro hh; exact TokenType.noConfusion hh, Or.inl rfl⟩
  by_cases h16 : st.cur = '>'
  · by_cases hp : st.peek1 = '='
    · rw [if_neg h1, if_neg h2, if_neg h3, if_neg h4, if_neg h5, if_neg h6, if_neg h7, if_neg h8, if_neg h9, if_neg h10, if_neg h11, if_neg h12, if_neg h13, if_neg h14, if_neg h15, if_pos h16, if_pos hp]
      exact ⟨by intro hh; exact TokenType.noConfusion hh, Or.inr ⟨rfl, by rw [h16]; decide⟩⟩
    · rw [if_neg h1, if_neg h2, if_neg h3, if_neg h4, if_neg h5, if_neg h6, if_neg h7, if_neg h8, if_neg h9, if_neg h10, if_neg h11, if_neg h12, if_neg h13, if_neg h14, if_neg h15, if_pos h16, if_neg hp]
      exact ⟨by intro hh; exact TokenType.noConfusion hh, Or.inl rfl⟩
  · rw [if_neg h1, if_neg h2, if_neg h3, if_neg h4, if_neg h5, if_neg h6, if_neg h7, if_neg h8, if_neg h9, if_neg h10, if_neg h11, if_neg h12, if_neg h13, if_neg h14, if_neg h15, if_neg h16]
    exact ⟨by intro hh; exact TokenType.noConfusion hh, Or.inl rfl⟩

theorem readOperator_state (st : LexSt) :
    (readOperator st).2.2 = st ∨ (readOperator st).2.2 = st.advance := by
  rcases (readOperator_spec st).2 with h | h
  · exact Or.inl h
  · exact Or.inr h.1

theorem readOperator_length_le (st : LexSt) :
    (readOperator st).2.2.src.length ≤ st.src.length := by
  rcases readOperator_state st with h | h <;> rw [h]
  exact st.advance_src_length_le

theorem isSpaceC_nul : isSpaceC nulChar = false := by decide

theorem skipWhitespace_false_eq (st : LexSt) (h : isSpaceC st.cur = false) :
    skipWhitespaceAux st.src st.line st.col = st := by
  obtain ⟨src, l, co⟩ := st
  cases src with
  | nil => rfl
  | cons c rest =>
    unfold skipWhitespaceAux
    rw [if_neg]
    simpa [LexSt.cur] using h

/-- A whitespace skip that reports success consumed at least one character. -/
theorem skipWhitespace_length_lt (st : LexSt) (h : (skipWhitespace st).2 = true) :
    (skipWhitespace st).1.src.length < st.src.length := by
  obtain ⟨src, l, co⟩ := st
  cases src with
  | nil => simp [skipWhitespace, LexSt.cur, isSpaceC_nul] at h
  | cons c rest =>
    have hc : isSpaceC c = true := by simpa [skipWhitespace, LexSt.cur] using h
    simp only [skipWhitespace, skipWhitespaceAux, hc, if_true]
    split <;> exact Nat.lt_succ_of_le (skipWhitespaceAux_length_le rest _ _)

/-- A comment skip that reports success consumed at least one character. -/
theorem skipComment_length_lt (st : LexSt) (h : (skipComment st).2 = true) :
    (skipComment st).1.src.length < st.src.length := by
  have hg : st.cur = '/' ∧ st.peek1 = '/' := by
    by_contra hng
    simp [skipComment, hng] at h
  obtain ⟨src, l, co⟩ := st
  cases src with
  | nil => exact absurd (by simpa [LexSt.cur] using hg.1) (by decide : ¬(nulChar = '/'))
  | cons c rest =>
    have hc : c = '/' := by simpa [LexSt.cur] using hg.1
    simp only [skipComment, if_pos hg]
    unfold skipLineAux
    rw [if_neg (by rw [hc]; decide)]
    exact Nat.lt_succ_of_le (skipLineAux_length_le rest _ _)

theorem isDigitC_ne_dot {c : Char} (h : isDigitC c = true) : ¬(c = '.') := by
  intro hc
  rw [hc] at h
  exact absurd h (by decide)

/-- Reading a number at a digit consumes at least that digit. -/
theorem readNumber_length_lt (st : LexSt) (hd : isDigitC st.cur = true) :
    (readNumber st).2.src.length < st.src.length := by
  obtain ⟨src, l, co⟩ := st
  cases src with
  | nil => exact absurd (by simpa [LexSt.cur] using hd) (by decide)
  | cons c rest =>
    have hc : isDigitC c = true := by simpa [LexSt.cur] using hd
    simp only [readNumber, readNumberAux, Bool.or_eq_true, hc, true_or, if_true,
      if_neg (isDigitC_ne_dot hc)]
    exact Nat.lt_succ_of_le (readNumberAux_length_le rest _ _ _ _)

/-- Reading a string consumes at least the opening quote. -/
theorem readString_length_lt (st : LexSt) (h : st.src ≠ []) :
    (readString st).2.src.length < st.src.length := by
  have hlt : st.advance.src.length < st.src.length := st.advance_src_length_lt h
  have h2 := readStringAux_length_le st.advance.src st.advance.line st.advance.col []
  simp only [readString]
  split
  · exact lt_of_le_of_lt (le_trans (LexSt.advance_src_length_le _) h2) hlt
  · exact lt_of_le_of_lt h2 hlt

/-- Reading an identifier at a letter or underscore consumes it. -/
theorem readIdentifier_length_lt (st : LexSt) (ha : (isAlphaC st.cur || st.cur = '_') = true) :
    (readIdentifier st).2.src.length < st.src.length := by
  obtain ⟨src, l, co⟩ := st
  cases src with
  | nil =>
    rw [show LexSt.cur ⟨[], l, co⟩ = nulChar from rfl] at ha
    exact absurd ha (by decide)
  | cons c rest =>
    have hc : (isAlnumC c || (c = '_' : Bool)) = true := by
      have := ha
      simp only [LexSt.cur] at this
      rcases Bool.or_eq_true _ _ |>.mp this with h | h
      · simp [isAlnumC, h]
      · simp [h]
    simp only [readIdentifier, readIdentifierAux, hc, if_true]
    exact Nat.lt_succ_of_le (readIdentifierAux_length_le rest _ _ _)

/-- The operator/punctuation branch (including its trailing `advance`)
consumes at least one character. -/
theorem readOperator_advance_length_lt (st : LexSt) (h : st.src ≠ []) :
    (readOperator st).2.2.advance.src.length < st.src.length := by
  rcases readOperator_state st with he | he <;> rw [he]
  · exact st.advance_src_length_lt h
  · have h1 : st.advance.src.length < st.src.length := st.advance_src_length_lt h
    have h2 := st.advance.advance_src_length_le
    omega

/-- Each non-final iteration of the `tokenize` loop consumes at least one
character: with fuel exceeding the remaining source length the loop always
reaches the end-of-input branch. -/
theorem tokenizeLoop_isSome :
    ∀ (n : Nat) (st : LexSt), st.src.length < n → (tokenizeLoop n st).isSome = true := by
  intro n
  induction n with
  | zero => intro st h; omega
  | succ n ih =>
    intro st h
    unfold tokenizeLoop
    split
    · rfl
    · rename_i hcur
      have hne : st.src ≠ [] := st.src_ne_nil hcur
      simp only
      split
      · rename_i hws
        apply ih
        have := skipWhitespace_length_lt st hws
        omega
      · rename_i hws
        have hst1 : (skipWhitespace st).1 = st :=
          skipWhitespace_false_eq st (by simpa [skipWhitespace] using hws)
        rw [hst1]
        split
        · rename_i hcm
          apply ih
          have := skipComment_length_lt st hcm
          omega
        · rename_i hcm
          have hst2 : (skipComment st).1 = st := by
            simp only [skipComment] at hcm ⊢
            split at hcm
            · simp at hcm
            · rename_i hng
              rw [if_neg hng]
          rw [hst2]
          split
          · rename_i hd
            have hsome := ih (readNumber st).2
              (by have := readNumber_length_lt st hd; omega)
            obtain ⟨r, hr⟩ := Option.isSome_iff_exists.mp hsome
            rw [hr]
            rfl
          split
          · rename_i hq
            have hsome := ih (readString st).2
              (by have := readString_length_lt st hne; omega)
            obtain ⟨r, hr⟩ := Option.isSome_iff_exists.mp hsome
            rw [hr]
            rfl
          split
          · rename_i ha
            have hsome := ih (readIdentifier st).2
              (by have := readIdentifier_length_lt st ha; omega)
            obtain ⟨r, hr⟩ := Option.isSome_iff_exists.mp hsome
            rw [hr]
            rfl
          · have hsome := ih (readOperator st).2.2.advance
              (by have := readOperator_advance_length_lt st hne; omega)
            obtain ⟨r, hr⟩ := Option.isSome_iff_exists.mp hsome
            rw [hr]
            rfl

/-- The full tokenizer never runs out of fuel. -/
theorem tokenizeFull_isSome (s : String) : (tokenizeFull s).isSome = true :=
  tokenizeLoop_isSome (s.data.length + 1) ⟨s.data, 1, 0⟩ (Nat.lt_succ_self _)

/-!
Structure of the emitted token list: kinds of the tokens the readers
produce, and position bookkeeping of each reader.
-/

theorem readNumber_type (st : LexSt) : (readNumber st).1.type = .number := rfl

theorem readString_type (st : LexSt) : (readString st).1.type = .string := rfl

theorem keywordType_ne_eof (id : List Char) : keywordType id ≠ .endOfFile := by
  unfold keywordType
  by_cases hfunkcio : id = "funkcio".data
  · rw [if_pos hfunkcio]
    intro hh
    exact TokenType.noConfusion hh
  by_cases hklaso : id = "klaso".data
  · rw [if_neg hfunkcio, if_pos hklaso]
    intro hh
    exact TokenType.noConfusion hh
  by_cases hse : id = "se".data
  · rw [if_neg hfunkcio, if_neg hklaso, if_pos hse]
    intro hh
    exact TokenType.noConfusion hh
  by_cases halie : id = "alie".data
  · rw [if_neg hfunkcio, if_neg hklaso, if_neg hse, if_pos halie]
    intro hh
    exact TokenType.noConfusion hh
  by_cases hdum : id = "dum".data
  · rw [if_neg hfunkcio, if_neg hklaso, if_neg hse, if_neg halie, if_pos hdum]
    intro hh
    exact TokenType.noConfusion hh
  by_cases hreveni : id = "reveni".data
  · rw [if_neg hfunkcio, if_neg hklaso, if_neg hse, if_neg halie, if_neg hdum, if_pos hreveni]
    intro hh
    exact TokenType.noConfusion hh
  by_cases htiu : id = "tiu".data
  · rw [if_neg hfunkcio, if_neg hklaso, if_neg hse, if_neg halie, if_neg hdum, if_neg hreveni, if_pos htiu]
    intro hh
    exact TokenType.noConfusion hh
  by_cases hvero : id = "vero".data
  · rw [if_neg hfunkcio, if_neg hklaso, if_neg hse, if_neg halie, if_neg hdum, if_neg hreveni, if_neg htiu, if_pos hvero]
    intro hh
    exact TokenType.noConfusion hh
  by_cases hmalvero : id = "malvero".data
  · rw [if_neg hfunkcio, if_neg hklaso, if_neg hse, if_neg halie, if_neg hdum, if_neg hreveni, if_neg htiu, if_neg hvero, if_pos hmalvero]
    intro hh
    exact TokenType.noConfusion hh
  by_cases hentjera : id = "entjera".data
  · rw [if_neg hfunkcio, if_neg hklaso, if_neg hse, if_neg halie, if_neg hdum, if_neg hreveni, if_neg htiu, if_neg hvero, if_neg hmalvero, if_pos hentjera]
    intro hh
    exact TokenType.noConfusion hh
  by_cases hreala : id = "reala".data
  · rw [if_neg hfunkcio, if_neg hklaso, if_neg hse, if_neg halie, if_neg hdum, if_neg hreveni, if_neg htiu, if_neg hvero, if_neg hmalvero, if_neg hentjera, if_pos hreala]
    intro hh
    exact TokenType.noConfusion hh
  by_cases hteksta : id = "teksta".data
  · rw [if_neg hfunkcio, if_neg hklaso, if_neg hse, if_neg halie, if_neg hdum, if_neg hreveni, if_neg htiu, if_neg hvero, if_neg hmalvero, if_neg hentjera, if_neg hreala, if_pos hteksta]
    intro hh
    exact TokenType.noConfusion hh
  by_cases hbulea : id = "bulea".data
  · rw [if_neg hfunkcio, if_neg hklaso, if_neg hse, if_neg halie, if_neg hdum, if_neg hreveni, if_neg htiu, if_neg hvero, if_neg hmalvero, if_neg hentjera, if_neg hreala, if_neg hteksta, if_pos hbulea]
    intro hh
    exact TokenType.noConfusion hh
  by_cases hfunkcia : id = "funkcia".data
  · rw [if_neg hfunkcio, if_neg hklaso, if_neg hse, if_neg halie, if_neg hdum, if_neg hreveni, if_neg htiu, if_neg hvero, if_neg hmalvero, if_neg hentjera, if_neg hreala, if_neg hteksta, if_neg hbulea, if_pos hfunkcia]
    intro hh
    exact TokenType.noConfusion hh
  · rw [if_neg hfunkcio, if_neg hklaso, if_neg hse, if_neg halie, if_neg hdum, if_neg hreveni, if_neg htiu, if_neg hvero, if_neg hmalvero, if_neg hentjera, if_neg hreala, if_neg hteksta, if_neg hbulea, if_neg hfunkcia]
    intro hh
    exact TokenType.noConfusion hh

theorem readIdentifier_type_ne_eof (st : LexSt) : (readIdentifier st).1.type ≠ .endOfFile :=
  keywordType_ne_eof _

theorem readNumberAux_line :
    ∀ (cs : List Char) (l co : Nat) (acc : List Char) (f : Bool),
      (readNumberAux cs l co acc f).2.line = l := by
  intro cs
  induction cs with
  | nil => intro l co acc f; rfl
  | cons c rest ih =>
    intro l co acc f
    unfold readNumberAux
    split
    · split
      · split
        · rfl
        · exact ih _ _ _ _
      · exact ih _ _ _ _
    · rfl

theorem readIdentifierAux_line :
    ∀ (cs : List Char) (l co : Nat) (acc : List Char),
      (readIdentifierAux cs l co acc).2.line = l := by
  intro cs
  induction cs with
  | nil => intro l co acc; rfl
  | cons c rest ih =>
    intro l co acc
    unfold readIdentifierAux
    split
    · exact ih _ _ _
    · rfl

theorem readNumber_line (st : LexSt) : (readNumber st).1.line = st.line :=
  readNumberAux_line st.src st.line st.col [] false

theorem readNumber_col (st : LexSt) : (readNumber st).1.column = st.col := rfl

theorem readIdentifier_line (st : LexSt) : (readIdentifier st).1.line = st.line :=
  readIdentifierAux_line st.src st.line st.col []

theorem readIdentifier_col (st : LexSt) : (readIdentifier st).1.column = st.col := rfl

theorem readString_col (st : LexSt) : (readString st).1.column = st.col := rfl

theorem readOperator_line (st : LexSt) : (readOperator st).2.2.line = st.line := by
  rcases (readOperator_spec st).2 with h | h
  · rw [h]
  · rw [h.1]
    exact st.advance_line_of_ne h.2

/-- The token-list structure invariant of the main loop: a successful run
produces a non-empty list whose last element is the end-of-input token
positioned at the final cursor, with no other end-of-input token in the
list. -/
theorem tokenizeLoop_eof :
    ∀ (n : Nat) (st : LexSt) (out : List (Token × Nat × Nat)) (stF : LexSt),
      tokenizeLoop n st = some (out, stF) →
      out ≠ [] ∧
      out.getLast? = some (⟨.endOfFile, [], stF.line, stF.col⟩, stF.line, stF.col) ∧
      out.countP (fun q => q.1.type == TokenType.endOfFile) = 1 := by
  intro n
  induction n with
  | zero => intro st out stF h; exact absurd h (by simp [tokenizeLoop])
  | succ n ih =>
    intro st out stF h
    unfold tokenizeLoop at h
    split at h
    · rw [Option.some_inj, Prod.mk.injEq] at h
      obtain ⟨ho, hs⟩ := h
      subst hs
      rw [← ho]
      exact ⟨by simp, rfl, by simp [List.countP_cons]⟩
    · simp only at h
      split at h
      · exact ih _ _ _ h
      · split at h
        · exact ih _ _ _ h
        · rw [Option.map_eq_some'] at h
          obtain ⟨res, hres, hout⟩ := h
          rw [Prod.mk.injEq] at hout
          obtain ⟨ho, hs⟩ := hout
          obtain ⟨hne, hlast, hcount⟩ := ih _ res.1 res.2 (by rw [hres])
          subst hs
          subst ho
          refine ⟨by simp, ?_, ?_⟩
          · cases hl : res.1 with
            | nil => exact absurd hl hne
            | cons a t =>
              rw [hl] at hlast
              rw [List.getLast?_cons_cons]
              exact hlast
          · rw [List.countP_cons_of_neg]
            · exact hcount
            · simp only [beq_iff_eq]
              intro hh
              revert hh
              split
              · rw [readNumber_type]
                intro hh
                exact TokenType.noConfusion hh
              split
              · rw [readString_type]
                intro hh
                exact TokenType.noConfusion hh
              split
              · intro hh
                exact readIdentifier_type_ne_eof _ hh
              · intro hh
                exact (readOperator_spec _).1 hh

/-- Position bookkeeping of the main loop: every emitted token records the
column at which its reading began (its first character's column), and every
token other than a string literal records the line at which its reading
began (its first character's line).  String literals instead record the
line reached after the literal was consumed. -/
theorem tokenizeLoop_pos :
    ∀ (n : Nat) (st : LexSt) (out : List (Token × Nat × Nat)) (stF : LexSt),
      tokenizeLoop n st = some (out, stF) →
      ∀ t sl sc, (t, sl, sc) ∈ out →
        t.column = sc ∧ (t.type ≠ .string → t.line = sl) := by
  intro n
  induction n with
  | zero => intro st out stF h; exact absurd h (by simp [tokenizeLoop])
  | succ n ih =>
    intro st out stF h t sl sc hmem
    unfold tokenizeLoop at h
    split at h
    · rw [Option.some_inj, Prod.mk.injEq] at h
      obtain ⟨ho, hs⟩ := h
      rw [← ho] at hmem
      rw [List.mem_singleton, Prod.mk.injEq, Prod.mk.injEq] at hmem
      obtain ⟨ht, hsl, hsc⟩ := hmem
      subst ht
      subst hsl
      subst hsc
      exact ⟨rfl, fun _ => rfl⟩
    · simp only at h
      split at h
      · exact ih _ _ _ h t sl sc hmem
      · split at h
        · exact ih _ _ _ h t sl sc hmem
        · rw [Option.map_eq_some'] at h
          obtain ⟨res, hres, hout⟩ := h
          rw [Prod.mk.injEq] at hout
          obtain ⟨ho, hs⟩ := hout
          rw [← ho] at hmem
          rcases List.mem_cons.mp hmem with hhd | htl
          · rw [Prod.mk.injEq, Prod.mk.injEq] at hhd
            obtain ⟨ht, hsl, hsc⟩ := hhd
            subst ht
            subst hsl
            subst hsc
            split
            · exact ⟨readNumber_col _, fun _ => readNumber_line _⟩
            split
            · exact ⟨readString_col _, fun hne => (hne (readString_type _)).elim⟩
            split
            · exact ⟨readIdentifier_col _, fun _ => readIdentifier_line _⟩
            · exact ⟨rfl, fun _ => readOperator_line _⟩
          · exact ih _ res.1 res.2 (by rw [hres]) t sl sc htl

/-!
The second-dot quirk: a number stops at a second `.`, which the next loop
iteration then emits as a Dot token.
-/

theorem isDigitC_ne_nul {c : Char} (h : isDigitC c = true) : ¬(c = nulChar) := by
  intro hc
  rw [hc] at h
  exact absurd h (by decide)

theorem isDigitC_not_space {c : Char} (h : isDigitC c = true) : isSpaceC c = false := by
  simp only [isDigitC, Bool.and_eq_true, decide_eq_true_eq] at h
  simp only [isSpaceC, Bool.or_eq_false_iff, decide_eq_false_iff_not, Bool.and_eq_false_iff]
  omega

theorem isDigitC_ne_slash {c : Char} (h : isDigitC c = true) : ¬(c = '/') := by
  intro hc
  rw [hc] at h
  exact absurd h (by decide)

theorem skipWhitespace_fst_eq (st : LexSt) (h : isSpaceC st.cur = false) :
    (skipWhitespace st).1 = st :=
  skipWhitespace_false_eq st h

theorem skipComment_not (st : LexSt) (h : ¬(st.cur = '/')) : skipComment st = (st, false) := by
  unfold skipComment
  rw [if_neg (fun hg => h hg.1)]

/-- One loop iteration starting on a digit: a Number token is emitted and
the loop resumes after the digit run. -/
theorem tokenizeLoop_step_digit (n : Nat) (st : LexSt) (hd : isDigitC st.cur = true) :
    tokenizeLoop (n+1) st = (tokenizeLoop n (readNumber st).2).map
      (fun res => (((readNumber st).1, st.line, st.col) :: res.1, res.2)) := by
  conv_lhs => unfold tokenizeLoop
  rw [if_neg (isDigitC_ne_nul hd)]
  have hws : (skipWhitespace st).2 = false := by
    rw [show (skipWhitespace st).2 = isSpaceC st.cur from rfl, isDigitC_not_space hd]
  have hws1 : (skipWhitespace st).1 = st := skipWhitespace_fst_eq st (isDigitC_not_space hd)
  simp only [hws, hws1, Bool.false_eq_true, if_false]
  rw [skipComment_not st (isDigitC_ne_slash hd)]
  simp only [Bool.false_eq_true, if_false, hd, if_true]

/-- The operator switch on a `.` cursor yields a Dot token and no inner
advance. -/
theorem readOperator_dot (st : LexSt) (h : st.cur = '.') :
    readOperator st = (.dot, ['.'], st) := by
  unfold readOperator
  rw [h]
  rw [if_neg (by decide), if_neg (by decide), if_neg (by decide), if_neg (by decide),
    if_neg (by decide), if_neg (by decide), if_neg (by decide), if_neg (by decide),
    if_neg (by decide), if_neg (by decide), if_neg (by decide), if_pos (by decide)]

/-- One loop iteration starting on a `.`: a Dot token is emitted and the
loop resumes one character later. -/
theorem tokenizeLoop_step_dot (n : Nat) (st : LexSt) (h : st.cur = '.') :
    tokenizeLoop (n+1) st = (tokenizeLoop n st.advance).map
      (fun res => (((⟨.dot, ['.'], st.line, st.col⟩ : Token), st.line, st.col) :: res.1, res.2)) := by
  conv_lhs => unfold tokenizeLoop
  rw [if_neg (by rw [h]; decide)]
  have hws : (skipWhitespace st).2 = false := by
    rw [show (skipWhitespace st).2 = isSpaceC st.cur from rfl, h]
    decide
  have hws1 : (skipWhitespace st).1 = st := skipWhitespace_fst_eq st (by rw [h]; decide)
  simp only [hws, hws1, Bool.false_eq_true, if_false]
  rw [skipComment_not st (by rw [h]; decide)]
  simp only [Bool.false_eq_true, if_false]
  rw [if_neg (by rw [h]; decide), if_neg (by rw [h]; decide), if_neg (by rw [h]; decide)]
  rw [readOperator_dot st h]

/-- Once the one permitted `.` has been consumed, the number loop consumes
no further `.`. -/
theorem readNumberAux_count_true :
    ∀ (cs : List Char) (l co : Nat) (acc : List Char),
      ((readNumberAux cs l co acc true).1.count '.') = acc.count '.' := by
  intro cs
  induction cs with
  | nil => intro l co acc; rfl
  | cons c rest ih =>
    intro l co acc
    unfold readNumberAux
    split
    · split
      · rfl
      · rename_i hg hdot
        rw [ih]
        rw [List.count_append]
        simp [List.count_singleton, hdot]
    · rfl

theorem readNumberAux_count_false_stop :
    ∀ (cs : List Char) (l co : Nat) (acc : List Char),
      (readNumberAux cs l co acc false).2.cur = '.' →
      (readNumberAux cs l co acc false).1.count '.' = acc.count '.' + 1 := by
  intro cs
  induction cs with
  | nil =>
    intro l co acc h
    exact absurd (show nulChar = '.' from h) (by decide)
  | cons c rest ih =>
    intro l co acc h
    unfold readNumberAux at h ⊢
    split at h
    · split at h
      · rename_i hg hdot
        rw [if_pos hg, if_pos hdot, if_neg (by decide : ¬(false = true))]
        rw [readNumberAux_count_true, List.count_append]
        simp [List.count_singleton, hdot]
      · rename_i hg hdot
        rw [if_pos hg, if_neg hdot]
        rw [ih _ _ _ h, List.count_append]
        simp [List.count_singleton, hdot]
    · rename_i hg
      rw [show (LexSt.cur ⟨c :: rest, l, co⟩) = c from rfl] at h
      rw [h] at hg
      exact absurd (by decide : (isDigitC '.' || ('.' = '.' : Bool)) = true) hg

/-- Claim C6: when the tokenizer reads a run of digits containing a second
`.`, the number loop stops on that second `.`; the main loop then emits the
Number token read so far — whose text contains exactly one `.` — and the
very next token emitted is a Dot token at the cursor where the number
stopped, leaving the stray `.` as a separate token. -/
theorem tokenizeLoop_second_dot (n : Nat) (st : LexSt) (out : List (Token × Nat × Nat)) (stF : LexSt)
    (hd : isDigitC st.cur = true)
    (hstop : (readNumber st).2.cur = '.')
    (h : tokenizeLoop (n+2) st = some (out, stF)) :
    ∃ rest, out = ((readNumber st).1, st.line, st.col) ::
        ((⟨.dot, ['.'], (readNumber st).2.line, (readNumber st).2.col⟩ : Token),
          (readNumber st).2.line, (readNumber st).2.col) :: rest ∧
      (readNumber st).1.type = .number ∧
      (readNumber st).1.value.count '.' = 1 := by
  rw [tokenizeLoop_step_digit (n+1) st hd, tokenizeLoop_step_dot n _ hstop,
    Option.map_map, Option.map_eq_some'] at h
  obtain ⟨res, hres, hout⟩ := h
  rw [Prod.mk.injEq] at hout
  refine ⟨res.1, hout.1.symm, readNumber_type st, ?_⟩
  exact readNumberAux_count_false_stop st.src st.line st.col [] hstop

/-!
No statement-dispatch path of the parser constructs a `classDecl` node.
`exprNoClass`/`stmtNoClass`/`nodeNoClass`/`nodesNoClass` check a tree for
the absence of class-declaration nodes.
-/

mutual
/-- No class-declaration node occurs in this expression. -/
def exprNoClass : ExprNode → Bool
  | .numberLiteral _ _ => true
  | .stringLiteral _ => true
  | .boolLiteral _ => true
  | .varRef _ => true
  | .binaryOp _ l r => exprNoClass l && exprNoClass r
  | .call f a => exprNoClass f && exprNoClass a
  | .atFunction _ _ _ body => nodesNoClass body
  | .memberAccess o _ => exprNoClass o
termination_by structural e => e
/-- No class-declaration node occurs in this statement. -/
def stmtNoClass : StmtNode → Bool
  | .varDecl _ _ none => true
  | .varDecl _ _ (some e) => exprNoClass e
  | .assign _ v => exprNoClass v
  | .functionDecl _ _ _ _ body => nodesNoClass body
  | .ret v => exprNoClass v
  | .ifStmt c t e => exprNoClass c && nodesNoClass t && nodesNoClass e
  | .whileStmt c b => exprNoClass c && nodesNoClass b
  | .classDecl _ _ _ => false
termination_by structural s => s
/-- No class-declaration node occurs in this node. -/
def nodeNoClass : ASTNode → Bool
  | .expr e => exprNoClass e
  | .stmt s => stmtNoClass s
termination_by structural a => a
/-- No class-declaration node occurs in this node list. -/
def nodesNoClass : List ASTNode → Bool
  | [] => true
  | a :: r => nodeNoClass a && nodesNoClass r
termination_by structural l => l
end

/-- Success destructuring for `Except` binds. -/
theorem bindOk {α β : Type} {x : Except String α} {f : α → Except String β} {b : β}
    (h : (x >>= f) = .ok b) : ∃ a, x = .ok a ∧ f a = .ok b := by
  cases x with
  | error e => exact absurd h (by intro hh; exact Except.noConfusion hh)
  | ok a => exact ⟨a, rfl, h⟩

/-- The no-class invariant, for every parser entry point at a given fuel. -/
structure NoClassP (n : Nat) : Prop where
  primary : ∀ st e st', parsePrimary n st = .ok (e, st') → exprNoClass e = true
  postfixLoop : ∀ e0 st e st', exprNoClass e0 = true →
    parsePostfixLoop n e0 st = .ok (e, st') → exprNoClass e = true
  postfixExpr : ∀ st e st', parsePostfixExpr n st = .ok (e, st') → exprNoClass e = true
  mulLoop : ∀ e0 st e st', exprNoClass e0 = true →
    parseMulLoop n e0 st = .ok (e, st') → exprNoClass e = true
  multiplicative : ∀ st e st', parseMultiplicative n st = .ok (e, st') → exprNoClass e = true
  addLoop : ∀ e0 st e st', exprNoClass e0 = true →
    parseAddLoop n e0 st = .ok (e, st') → exprNoClass e = true
  additive : ∀ st e st', parseAdditive n st = .ok (e, st') → exprNoClass e = true
  cmpLoop : ∀ e0 st e st', exprNoClass e0 = true →
    parseCmpLoop n e0 st = .ok (e, st') → exprNoClass e = true
  comparison : ∀ st e st', parseComparison n st = .ok (e, st') → exprNoClass e = true
  expression : ∀ st e st', parseExpression n st = .ok (e, st') → exprNoClass e = true
  stmtList : ∀ st out st', parseStmtList n st = .ok (out, st') → nodesNoClass out = true
  statement : ∀ st a st', parseStatement n st = .ok (a, st') → nodeNoClass a = true
  programLoop : ∀ st out st', parseProgramLoop n st = .ok (out, st') → nodesNoClass out = true

theorem noClassP_zero : NoClassP 0 := by
  constructor <;> intros <;> rename_i h <;>
    exact absurd h (by intro hh; exact Except.noConfusion hh)

theorem okFst {α β : Type} {x : α} {y : β} {e : α} {st' : β}
    (h : (Except.ok (x, y) : Except String (α × β)) = .ok (e, st')) : x = e :=
  congrArg Prod.fst (Except.ok.inj h)

theorem andT {a b : Bool} (ha : a = true) (hb : b = true) : (a && b) = true := by
  rw [ha, hb]
  rfl

theorem noClassP_succ (n : Nat) (ih : NoClassP n) : NoClassP (n+1) := by
  constructor
  case primary =>
    intro st e st' h
    unfold parsePrimary at h
    try dsimp only at h
    split at h
    · rw [← okFst h]
      rfl
    split at h
    · rw [← okFst h]
      rfl
    split at h
    · rw [← okFst h]
      rfl
    split at h
    · rw [← okFst h]
      rfl
    split at h
    · obtain ⟨st2, h1, h⟩ := bindOk h
      obtain ⟨tp, h2, h⟩ := bindOk h
      obtain ⟨st4, h3, h⟩ := bindOk h
      obtain ⟨st5, h4, h⟩ := bindOk h
      obtain ⟨rp, h5, h⟩ := bindOk h
      obtain ⟨st7, h6, h⟩ := bindOk h
      obtain ⟨bp, h7, h⟩ := bindOk h
      rw [← okFst h]
      exact ih.stmtList _ _ _ (show parseStmtList n st7 = .ok (bp.1, bp.2) by rw [h7])
    split at h
    · obtain ⟨ep, h1, h⟩ := bindOk h
      obtain ⟨st3, h2, h⟩ := bindOk h
      rw [← okFst h]
      exact ih.expression _ _ _ (show parseExpression n _ = .ok (ep.1, ep.2) by rw [h1])
    split at h
    · rw [← okFst h]
      rfl
    · exact absurd h (by intro hh; exact Except.noConfusion hh)
  case postfixLoop =>
    intro e0 st e st' h0 h
    unfold parsePostfixLoop at h
    try dsimp only at h
    split at h
    · obtain ⟨ap, h1, h⟩ := bindOk h
      obtain ⟨st3, h2, h⟩ := bindOk h
      exact ih.postfixLoop (.call e0 ap.1) _ _ _
        (andT h0 (ih.expression _ _ _ (show parseExpression n _ = .ok (ap.1, ap.2) by rw [h1]))) h
    split at h
    · obtain ⟨st2, h1, h⟩ := bindOk h
      exact ih.postfixLoop (.memberAccess e0 _) _ _ _ h0 h
    · rw [← okFst h]
      exact h0
  case postfixExpr =>
    intro st e st' h
    unfold parsePostfixExpr at h
    try dsimp only at h
    obtain ⟨ep, h1, h⟩ := bindOk h
    exact ih.postfixLoop ep.1 _ _ _
      (ih.primary _ _ _ (show parsePrimary n st = .ok (ep.1, ep.2) by rw [h1])) h
  case mulLoop =>
    intro e0 st e st' h0 h
    unfold parseMulLoop at h
    try dsimp only at h
    split at h
    · obtain ⟨rp, h1, h⟩ := bindOk h
      exact ih.mulLoop (.binaryOp _ e0 rp.1) _ _ _
        (andT h0 (ih.postfixExpr _ _ _ (show parsePostfixExpr n _ = .ok (rp.1, rp.2) by rw [h1]))) h
    · rw [← okFst h]
      exact h0
  case multiplicative =>
    intro st e st' h
    unfold parseMultiplicative at h
    try dsimp only at h
    obtain ⟨lp, h1, h⟩ := bindOk h
    exact ih.mulLoop lp.1 _ _ _
      (ih.postfixExpr _ _ _ (show parsePostfixExpr n st = .ok (lp.1, lp.2) by rw [h1])) h
  case addLoop =>
    intro e0 st e st' h0 h
    unfold parseAddLoop at h
    try dsimp only at h
    split at h
    · obtain ⟨rp, h1, h⟩ := bindOk h
      exact ih.addLoop (.binaryOp _ e0 rp.1) _ _ _
        (andT h0 (ih.multiplicative _ _ _ (show parseMultiplicative n _ = .ok (rp.1, rp.2) by rw [h1]))) h
    · rw [← okFst h]
      exact h0
  case additive =>
    intro st e st' h
    unfold parseAdditive at h
    try dsimp only at h
    obtain ⟨lp, h1, h⟩ := bindOk h
    exact ih.addLoop lp.1 _ _ _
      (ih.multiplicative _ _ _ (show parseMultiplicative n st = .ok (lp.1, lp.2) by rw [h1])) h
  case cmpLoop =>
    intro e0 st e st' h0 h
    unfold parseCmpLoop at h
    try dsimp only at h
    split at h
    · obtain ⟨op, h1, h⟩ := bindOk h
      obtain ⟨rp, h2, h⟩ := bindOk h
      exact ih.cmpLoop (.binaryOp op e0 rp.1) _ _ _
        (andT h0 (ih.additive _ _ _ (show parseAdditive n _ = .ok (rp.1, rp.2) by rw [h2]))) h
    · rw [← okFst h]
      exact h0
  case comparison =>
    intro st e st' h
    unfold parseComparison at h
    try dsimp only at h
    obtain ⟨lp, h1, h⟩ := bindOk h
    exact ih.cmpLoop lp.1 _ _ _
      (ih.additive _ _ _ (show parseAdditive n st = .ok (lp.1, lp.2) by rw [h1])) h
  case expression =>
    intro st e st' h
    unfold parseExpression at h
    try dsimp only at h
    exact ih.comparison _ _ _ h
  case stmtList =>
    intro st out st' h
    unfold parseStmtList at h
    try dsimp only at h
    split at h
    · rw [← okFst h]
      rfl
    · obtain ⟨sp, h1, h⟩ := bindOk h
      obtain ⟨rp, h2, h⟩ := bindOk h
      rw [← okFst h]
      exact andT
        (ih.statement _ _ _ (show parseStatement n _ = .ok (sp.1, sp.2) by rw [h1]))
        (ih.stmtList _ _ _ (show parseStmtList n _ = .ok (rp.1, rp.2) by rw [h2]))
  case statement =>
    intro st a st' h
    unfold parseStatement at h
    try dsimp only at h
    split at h
    · obtain ⟨tp, h1, h⟩ := bindOk h
      obtain ⟨st2, h2, h⟩ := bindOk h
      split at h
      · obtain ⟨ip, h3, h⟩ := bindOk h
        obtain ⟨st5, h4, h⟩ := bindOk h
        rw [← okFst h]
        exact ih.expression _ _ _ (show parseExpression n _ = .ok (ip.1, ip.2) by rw [h3])
      · obtain ⟨st5, h4, h⟩ := bindOk h
        rw [← okFst h]
        rfl
    split at h
    · obtain ⟨st2, h1, h⟩ := bindOk h
      obtain ⟨st3, h2, h⟩ := bindOk h
      obtain ⟨tp, h3, h⟩ := bindOk h
      obtain ⟨st5, h4, h⟩ := bindOk h
      obtain ⟨st6, h5, h⟩ := bindOk h
      obtain ⟨rp, h6, h⟩ := bindOk h
      obtain ⟨st8, h7, h⟩ := bindOk h
      obtain ⟨bp, h8, h⟩ := bindOk h
      rw [← okFst h]
      exact ih.stmtList _ _ _ (show parseStmtList n _ = .ok (bp.1, bp.2) by rw [h8])
    split at h
    · obtain ⟨vp, h1, h⟩ := bindOk h
      obtain ⟨st3, h2, h⟩ := bindOk h
      rw [← okFst h]
      exact ih.expression _ _ _ (show parseExpression n _ = .ok (vp.1, vp.2) by rw [h1])
    split at h
    · obtain ⟨st2, h1, h⟩ := bindOk h
      obtain ⟨cp, h2, h⟩ := bindOk h
      obtain ⟨st4, h3, h⟩ := bindOk h
      obtain ⟨st5, h4, h⟩ := bindOk h
      obtain ⟨tb, h5, h⟩ := bindOk h
      split at h
      · obtain ⟨st8, h6, h⟩ := bindOk h
        obtain ⟨eb, h7, h⟩ := bindOk h
        rw [← okFst h]
        exact andT (andT
          (ih.expression _ _ _ (show parseExpression n _ = .ok (cp.1, cp.2) by rw [h2]))
          (ih.stmtList _ _ _ (show parseStmtList n _ = .ok (tb.1, tb.2) by rw [h5])))
          (ih.stmtList _ _ _ (show parseStmtList n _ = .ok (eb.1, eb.2) by rw [h7]))
      · rw [← okFst h]
        exact andT (andT
          (ih.expression _ _ _ (show parseExpression n _ = .ok (cp.1, cp.2) by rw [h2]))
          (ih.stmtList _ _ _ (show parseStmtList n _ = .ok (tb.1, tb.2) by rw [h5]))) rfl
    split at h
    · obtain ⟨st2, h1, h⟩ := bindOk h
      obtain ⟨cp, h2, h⟩ := bindOk h
      obtain ⟨st4, h3, h⟩ := bindOk h
      obtain ⟨st5, h4, h⟩ := bindOk h
      obtain ⟨bp, h5, h⟩ := bindOk h
      rw [← okFst h]
      exact andT
        (ih.expression _ _ _ (show parseExpression n _ = .ok (cp.1, cp.2) by rw [h2]))
        (ih.stmtList _ _ _ (show parseStmtList n _ = .ok (bp.1, bp.2) by rw [h5]))
    · obtain ⟨ep, h1, h⟩ := bindOk h
      have hE := ih.expression _ _ _ (show parseExpression n st = .ok (ep.1, ep.2) by rw [h1])
      split at h
      · split at h
        · obtain ⟨vp, h2, h⟩ := bindOk h
          obtain ⟨st4, h3, h⟩ := bindOk h
          rw [← okFst h]
          exact ih.expression _ _ _ (show parseExpression n _ = .ok (vp.1, vp.2) by rw [h2])
        · obtain ⟨st4, h2, h⟩ := bindOk h
          rw [← okFst h]
          exact hE
      all_goals
        obtain ⟨st4, h2, h⟩ := bindOk h
        rw [← okFst h]
        exact hE
  case programLoop =>
    intro st out st' h
    unfold parseProgramLoop at h
    try dsimp only at h
    split at h
    · rw [← okFst h]
      rfl
    · obtain ⟨sp, h1, h⟩ := bindOk h
      obtain ⟨rp, h2, h⟩ := bindOk h
      rw [← okFst h]
      exact andT
        (ih.statement _ _ _ (show parseStatement n _ = .ok (sp.1, sp.2) by rw [h1]))
        (ih.programLoop _ _ _ (show parseProgramLoop n _ = .ok (rp.1, rp.2) by rw [h2]))

/-- The no-class invariant holds at every fuel. -/
theorem noClassP_all : ∀ n, NoClassP n := by
  intro n
  induction n with
  | zero => exact noClassP_zero
  | succ n ih => exact noClassP_succ n ih

/-- The dynamic cast of `Parser::parseStatement` succeeds only on a bare
variable reference; this flags what the C++ cast rejects among the
expression forms the claim singles out. -/
def ExprNode.isCallOrMember : ExprNode → Bool
  | .call _ _ => true
  | .memberAccess _ _ => true
  | _ => false

theorem pMatch_not (st : PSt) (ty : TokenType) (h : ¬(st.cur.type = ty)) :
    pMatch st ty = (false, st) := by
  unfold pMatch
  rw [if_neg h]

theorem pMatch_yes (st : PSt) (ty : TokenType) (h : st.cur.type = ty) :
    pMatch st ty = (true, st.advance) := by
  unfold pMatch
  rw [if_pos h]

/-- `Parser::expect` on a mismatched token raises the message plus the
line of the offending token. -/
theorem expect_fail (st : PSt) (ty : TokenType) (message : String)
    (h : ¬(st.cur.type = ty)) :
    expect st ty message = .error (message ++ " at line " ++ toString st.cur.line) := by
  unfold expect
  rw [pMatch_not st ty h]
  dsimp only
  rw [if_neg (by intro hh; exact Bool.noConfusion hh)]

/-- `Parser::parseType` on anything that is not a primitive type keyword
raises the fixed message `"Expected type"`, with no line information. -/
theorem parseType_fail (st : PSt)
    (h1 : ¬(st.cur.type = .entjera)) (h2 : ¬(st.cur.type = .reala))
    (h3 : ¬(st.cur.type = .teksta)) (h4 : ¬(st.cur.type = .bulea))
    (h5 : ¬(st.cur.type = .funkcia)) :
    parseType st = .error "Expected type" := by
  unfold parseType
  dsimp only
  split
  · exact absurd (by assumption) h1
  · exact absurd (by assumption) h2
  · exact absurd (by assumption) h3
  · exact absurd (by assumption) h4
  · exact absurd (by assumption) h5
  · rfl

/-- `Parser::parsePrimary` on a token that starts no primary expression
raises the fixed message `"Unexpected token in expression"`, with no line
information. -/
theorem parsePrimary_fail (n : Nat) (st : PSt)
    (h1 : ¬(st.cur.type = .number)) (h2 : ¬(st.cur.type = .string))
    (h3 : ¬(st.cur.type = .vero)) (h4 : ¬(st.cur.type = .malvero))
    (h5 : ¬(st.cur.type = .atSign)) (h6 : ¬(st.cur.type = .lparen))
    (h7 : ¬(st.cur.type = .identifier)) (h8 : ¬(st.cur.type = .tiu)) :
    parsePrimary (n+1) st = .error "Unexpected token in expression" := by
  unfold parsePrimary
  dsimp only
  rw [if_neg h1, if_neg h2, if_neg h3, if_neg h4, pMatch_not st .atSign h5,
    pMatch_not st .lparen h6]
  rw [if_neg (by intro hh; exact Bool.noConfusion hh), if_neg (by intro hh; exact Bool.noConfusion hh),
    if_neg (by intro hh; rcases hh with hh | hh; exact h7 hh; exact h8 hh)]

theorem ok_bind {α β : Type} (a : α) (f : α → Except String β) :
    (Except.ok a : Except String α) >>= f = f a := rfl

theorem error_bind {α β : Type} (e : String) (f : α → Except String β) :
    (Except.error e : Except String α) >>= f = .error e := rfl

/-- Claim C5: assignment targets are restricted to bare variable names.
When `parseStatement` falls through to the expression-statement case and
the parsed leading expression is a call or a member access followed by `=`,
parsing fails (with the "Expected ';'" failure at that token's line): call
results and member accesses are never assignable targets.  In particular
(see the witness) parsing the tokenization of `"f(x) = 1;"` fails. -/
theorem parseStatement_call_assign_fails (n : Nat) (st : PSt) (ep : ExprNode × PSt)
    (hd1 : ¬(st.cur.type = .entjera ∨ st.cur.type = .reala ∨ st.cur.type = .teksta
      ∨ st.cur.type = .bulea ∨ st.cur.type = .funkcia))
    (hd2 : ¬(st.cur.type = .funkcio)) (hd3 : ¬(st.cur.type = .reveni))
    (hd4 : ¬(st.cur.type = .se)) (hd5 : ¬(st.cur.type = .dum))
    (hE : parseExpression n st = .ok ep)
    (hCM : ep.1.isCallOrMember = true)
    (hA : ep.2.cur.type = .assign) :
    parseStatement (n+1) st = .error ("Expected ';'" ++ " at line " ++ toString ep.2.cur.line) := by
  have hnsemi : ¬(ep.2.cur.type = .semicolon) := by
    intro hh
    rw [hA] at hh
    exact TokenType.noConfusion hh
  unfold parseStatement
  dsimp only
  rw [if_neg hd1, pMatch_not st .funkcio hd2]
  dsimp only
  rw [if_neg (by intro hh; exact Bool.noConfusion hh), pMatch_not st .reveni hd3]
  dsimp only
  rw [if_neg (by intro hh; exact Bool.noConfusion hh), pMatch_not st .se hd4]
  dsimp only
  rw [if_neg (by intro hh; exact Bool.noConfusion hh), pMatch_not st .dum hd5]
  dsimp only
  rw [if_neg (by intro hh; exact Bool.noConfusion hh), hE, ok_bind]
  cases hc : ep.1 with
  | call f a =>
    rw [expect_fail ep.2 .semicolon "Expected ';'" hnsemi, error_bind]
  | memberAccess o m =>
    rw [expect_fail ep.2 .semicolon "Expected ';'" hnsemi, error_bind]
  | numberLiteral v i =>
    rw [hc] at hCM
    exact Bool.noConfusion hCM
  | stringLiteral v =>
    rw [hc] at hCM
    exact Bool.noConfusion hCM
  | boolLiteral b =>
    rw [hc] at hCM
    exact Bool.noConfusion hCM
  | varRef vname =>
    rw [hc] at hCM
    exact Bool.noConfusion hCM
  | binaryOp op l r =>
    rw [hc] at hCM
    exact Bool.noConfusion hCM
  | atFunction p pt rt b =>
    rw [hc] at hCM
    exact Bool.noConfusion hCM

/-- Structural equality on expression-parse results (expression plus parser
state). -/
def exprStBeq (a b : ExprNode × PSt) : Bool :=
  exprBeq a.1 b.1 && a.2 == b.2

theorem exprStBeq_sound : ∀ a b, exprStBeq a b = true → a = b := by
  intro a b h
  unfold exprStBeq at h
  rw [Bool.and_eq_true] at h
  obtain ⟨h1, h2⟩ := h
  obtain ⟨a1, a2⟩ := a
  obtain ⟨b1, b2⟩ := b
  rw [Prod.mk.injEq]
  exact ⟨exprBeq_sound a1 b1 h1, eq_of_beq h2⟩

/-- Convert a kernel-checked comparison of expression-parse results into a
propositional equality. -/
theorem exprPairResEq (r1 r2 : Except String (ExprNode × PSt))
    (h : exceptBeqBy exprStBeq r1 r2 = true) : r1 = r2 :=
  exceptBeqBy_sound exprStBeq exprStBeq_sound r1 r2 h

/-!
Claim theorems (the remaining ones), their witnesses, and counterexamples.
-/

/-- Claim C1 (code evaluation at the failing inputs): `Parser::parsePrimary`
sets the literal's `isInteger` flag to `value.contains('.')`, which is the
INVERSE of the specified behaviour: parsing the tokenization of `"42"`
yields a number literal with integer flag `false`, and of `"3.14"` one
with integer flag `true`.  (`NumberLiteral::toString` casts the value to
`int` exactly when `isInteger` holds, so the flag as implemented truncates
real literals and prints integers as doubles — the code, not the spec, is
in error.) -/
theorem numberLiteral_flag_inverted :
    (tokenize "42" = some [⟨.number, "42".data, 1, 0⟩, ⟨.endOfFile, [], 1, 2⟩]) ∧
    ((parseExpression 16 ⟨[⟨.number, "42".data, 1, 0⟩, ⟨.endOfFile, [], 1, 2⟩], 0⟩).map
        (fun p => p.1) = .ok (.numberLiteral "42".data false)) ∧
    (tokenize "3.14" = some [⟨.number, "3.14".data, 1, 0⟩, ⟨.endOfFile, [], 1, 4⟩]) ∧
    ((parseExpression 16 ⟨[⟨.number, "3.14".data, 1, 0⟩, ⟨.endOfFile, [], 1, 4⟩], 0⟩).map
        (fun p => p.1) = .ok (.numberLiteral "3.14".data true)) :=
  ⟨by decide, exprResEq _ _ (by decide), by decide, exprResEq _ _ (by decide)⟩

/-- Counterexample to claim C2: the unexpected-token failure raised from an
expression-start position carries only the fixed message
`"Unexpected token in expression"` — no line number at all (the message
contains no digit), refuting the claim that all three failure categories
carry the line of the offending token. -/
theorem parse_failure_no_line_cex :
    (tokenize "klaso" = some [⟨.klaso, "klaso".data, 1, 0⟩, ⟨.endOfFile, [], 1, 5⟩]) ∧
    (parseProgram [⟨.klaso, "klaso".data, 1, 0⟩, ⟨.endOfFile, [], 1, 5⟩] =
      .error "Unexpected token in expression") ∧
    ("Unexpected token in expression".data.any isDigitC = false) :=
  ⟨by decide, parseResEq _ _ (by decide), by decide⟩

/-- Claim C2 as amended: of the three parse-failure categories, only the
required-token failures raised through `Parser::expect` carry the 1-based
line of the offending token appended to the message; the
unrecognized-type-keyword failure and the unexpected-token failure at an
expression-start position carry only their fixed messages, with no line
information. -/
theorem parse_failure_line_reporting :
    (∀ st ty message, ¬(st.cur.type = ty) →
      expect st ty message = .error (message ++ " at line " ++ toString st.cur.line)) ∧
    (∀ st, ¬(st.cur.type = .entjera) → ¬(st.cur.type = .reala) → ¬(st.cur.type = .teksta) →
      ¬(st.cur.type = .bulea) → ¬(st.cur.type = .funkcia) →
      parseType st = .error "Expected type") ∧
    (∀ n st, ¬(st.cur.type = .number) → ¬(st.cur.type = .string) → ¬(st.cur.type = .vero) →
      ¬(st.cur.type = .malvero) → ¬(st.cur.type = .atSign) → ¬(st.cur.type = .lparen) →
      ¬(st.cur.type = .identifier) → ¬(st.cur.type = .tiu) →
      parsePrimary (n+1) st = .error "Unexpected token in expression") :=
  ⟨fun st ty message h => expect_fail st ty message h,
   fun st h1 h2 h3 h4 h5 => parseType_fail st h1 h2 h3 h4 h5,
   fun n st h1 h2 h3 h4 h5 h6 h7 h8 => parsePrimary_fail n st h1 h2 h3 h4 h5 h6 h7 h8⟩

/-- Witness for the amended claim C2, at the one-token state holding a
`klaso` keyword: the `expect`-category failure carries `" at line 1"`, the
other two failures are the bare fixed messages. -/
theorem parse_failure_line_reporting_witness :
    (expect ⟨[⟨.klaso, "klaso".data, 1, 0⟩], 0⟩ .semicolon "Expected ';'" =
      .error "Expected ';' at line 1") ∧
    (parseType ⟨[⟨.klaso, "klaso".data, 1, 0⟩], 0⟩ = .error "Expected type") ∧
    (parsePrimary 1 ⟨[⟨.klaso, "klaso".data, 1, 0⟩], 0⟩ =
      .error "Unexpected token in expression") :=
  ⟨parse_failure_line_reporting.1 _ .semicolon "Expected ';'" (by decide),
   parse_failure_line_reporting.2.1 _ (by decide) (by decide) (by decide) (by decide) (by decide),
   parse_failure_line_reporting.2.2 0 _ (by decide) (by decide) (by decide) (by decide)
     (by decide) (by decide) (by decide) (by decide)⟩

/-- Counterexample to claim C3: tokenizing `"\"a\nb\""` (a string literal
containing a newline) emits a String token that records line 2 — the line
where the literal ends — although the token's first character lies on
line 1, where its reading began (the attached pair components are the
recorded line and the cursor line at the start of the token); 2 ≠ 1. -/
theorem string_token_line_cex :
    ((tokenizeFull "\"a\nb\"").map (fun p => p.1.map (fun q => (q.1.type, q.1.line, q.2.1))) =
      some [(.string, 2, 1), (.endOfFile, 2, 2)]) ∧ ¬((2 : Nat) = 1) :=
  ⟨by decide, by decide⟩

/-- Claim C3 as amended: every emitted token records the column of its
first character; every token other than a String token also records the
line of its first character; a String token whose text spans source lines
instead records the line reached after the literal was consumed. -/
theorem token_position_recording :
    ∀ s out stF, tokenizeFull s = some (out, stF) →
      (tokenize s = some (out.map (fun q => q.1))) ∧
      (∀ t sl sc, (t, sl, sc) ∈ out →
        t.column = sc ∧ (t.type ≠ .string → t.line = sl)) := by
  intro s out stF h
  constructor
  · unfold tokenize
    rw [show tokenizeFull s = some (out, stF) from h]
    rfl
  · exact tokenizeLoop_pos _ _ _ _ h

/-- Witness for the amended claim C3 at the multi-line-string input: the
end-of-input token of `"\"a\nb\""` records column 2 and line 2, the cursor
position where its reading began. -/
theorem token_position_recording_witness :
    (⟨.endOfFile, [], 2, 2⟩ : Token).column = 2 ∧
    ((⟨.endOfFile, [], 2, 2⟩ : Token).type ≠ .string →
      (⟨.endOfFile, [], 2, 2⟩ : Token).line = 2) :=
  (token_position_recording "\"a\nb\""
    [(⟨.string, ['a', '\n', 'b'], 2, 0⟩, 1, 0), (⟨.endOfFile, [], 2, 2⟩, 2, 2)]
    ⟨[], 2, 2⟩ (by decide)).2 _ 2 2 (by decide)

/-- Claim C4: multiplicative operators bind tighter than additive ones, and
each level is left-associative: `"1 + 2 * 3"` parses as an addition whose
right operand is the multiplication of 2 and 3, and `"1 - 2 - 3"` parses as
a subtraction whose left operand is the subtraction of 1 and 2. -/
theorem binary_operator_precedence_assoc :
    (tokenize "1 + 2 * 3" = some [⟨.number, ['1'], 1, 0⟩, ⟨.plus, ['+'], 1, 2⟩,
      ⟨.number, ['2'], 1, 4⟩, ⟨.multiply, ['*'], 1, 6⟩, ⟨.number, ['3'], 1, 8⟩,
      ⟨.endOfFile, [], 1, 9⟩]) ∧
    ((parseExpression 24 ⟨[⟨.number, ['1'], 1, 0⟩, ⟨.plus, ['+'], 1, 2⟩,
        ⟨.number, ['2'], 1, 4⟩, ⟨.multiply, ['*'], 1, 6⟩, ⟨.number, ['3'], 1, 8⟩,
        ⟨.endOfFile, [], 1, 9⟩], 0⟩).map (fun p => p.1) =
      .ok (.binaryOp .add (.numberLiteral ['1'] false)
        (.binaryOp .mul (.numberLiteral ['2'] false) (.numberLiteral ['3'] false)))) ∧
    (tokenize "1 - 2 - 3" = some [⟨.number, ['1'], 1, 0⟩, ⟨.minus, ['-'], 1, 2⟩,
      ⟨.number, ['2'], 1, 4⟩, ⟨.minus, ['-'], 1, 6⟩, ⟨.number, ['3'], 1, 8⟩,
      ⟨.endOfFile, [], 1, 9⟩]) ∧
    ((parseExpression 24 ⟨[⟨.number, ['1'], 1, 0⟩, ⟨.minus, ['-'], 1, 2⟩,
        ⟨.number, ['2'], 1, 4⟩, ⟨.minus, ['-'], 1, 6⟩, ⟨.number, ['3'], 1, 8⟩,
        ⟨.endOfFile, [], 1, 9⟩], 0⟩).map (fun p => p.1) =
      .ok (.binaryOp .sub (.binaryOp .sub (.numberLiteral ['1'] false) (.numberLiteral ['2'] false))
        (.numberLiteral ['3'] false))) :=
  ⟨by decide, exprResEq _ _ (by decide), by decide, exprResEq _ _ (by decide)⟩

/-- Witness for claim C5 at the tokenization of `"f(x) = 1;"`: the leading
expression parses to the call `f(x)`, the next token is `=`, and
`parseStatement` fails with the "Expected ';'" failure at line 1. -/
theorem assignment_target_restriction_witness :
    parseStatement 17 ⟨[⟨.identifier, ['f'], 1, 0⟩, ⟨.lparen, ['('], 1, 1⟩,
      ⟨.identifier, ['x'], 1, 2⟩, ⟨.rparen, [')'], 1, 3⟩, ⟨.assign, ['='], 1, 5⟩,
      ⟨.number, ['1'], 1, 7⟩, ⟨.semicolon, [';'], 1, 8⟩, ⟨.endOfFile, [], 1, 9⟩], 0⟩ =
      .error ("Expected ';'" ++ " at line " ++ toString
        ((⟨[⟨.identifier, ['f'], 1, 0⟩, ⟨.lparen, ['('], 1, 1⟩, ⟨.identifier, ['x'], 1, 2⟩,
          ⟨.rparen, [')'], 1, 3⟩, ⟨.assign, ['='], 1, 5⟩, ⟨.number, ['1'], 1, 7⟩,
          ⟨.semicolon, [';'], 1, 8⟩, ⟨.endOfFile, [], 1, 9⟩], 4⟩ : PSt).cur.line)) :=
  parseStatement_call_assign_fails 16 _
    (.call (.varRef ['f']) (.varRef ['x']),
      ⟨[⟨.identifier, ['f'], 1, 0⟩, ⟨.lparen, ['('], 1, 1⟩, ⟨.identifier, ['x'], 1, 2⟩,
        ⟨.rparen, [')'], 1, 3⟩, ⟨.assign, ['='], 1, 5⟩, ⟨.number, ['1'], 1, 7⟩,
        ⟨.semicolon, [';'], 1, 8⟩, ⟨.endOfFile, [], 1, 9⟩], 4⟩)
    (by decide) (by decide) (by decide) (by decide) (by decide)
    (exprPairResEq _ _ (by decide)) (by decide) (by decide)

/-- Witness for claim C6 at the tokenization of `"1.2.3"`: the Number token
`"1.2"` stops at the second `.`, which immediately follows as a Dot token. -/
theorem second_dot_witness :
    ∃ rest, ([((readNumber ⟨"1.2.3".data, 1, 0⟩).1, 1, 0),
        ((⟨.dot, ['.'], 1, 3⟩ : Token), 1, 3), ((⟨.number, ['3'], 1, 4⟩ : Token), 1, 4),
        ((⟨.endOfFile, [], 1, 5⟩ : Token), 1, 5)] : List (Token × Nat × Nat)) =
      ((readNumber ⟨"1.2.3".data, 1, 0⟩).1, (⟨"1.2.3".data, 1, 0⟩ : LexSt).line,
        (⟨"1.2.3".data, 1, 0⟩ : LexSt).col) ::
      ((⟨.dot, ['.'], (readNumber ⟨"1.2.3".data, 1, 0⟩).2.line,
          (readNumber ⟨"1.2.3".data, 1, 0⟩).2.col⟩ : Token),
        (readNumber ⟨"1.2.3".data, 1, 0⟩).2.line,
        (readNumber ⟨"1.2.3".data, 1, 0⟩).2.col) :: rest ∧
      (readNumber ⟨"1.2.3".data, 1, 0⟩).1.type = .number ∧
      (readNumber ⟨"1.2.3".data, 1, 0⟩).1.value.count '.' = 1 :=
  tokenizeLoop_second_dot 3 ⟨"1.2.3".data, 1, 0⟩
    [((readNumber ⟨"1.2.3".data, 1, 0⟩).1, 1, 0), ((⟨.dot, ['.'], 1, 3⟩ : Token), 1, 3),
      ((⟨.number, ['3'], 1, 4⟩ : Token), 1, 4), ((⟨.endOfFile, [], 1, 5⟩ : Token), 1, 5)]
    ⟨[], 1, 5⟩ (by decide) (by decide) (by decide)

/-- Claim C7: for every input, a successful tokenizer run ends with exactly
one end-of-input token (none occurs anywhere else), positioned at the final
line/column reached by the cursor; tokenizing whitespace-only input yields
exactly that one token. -/
theorem tokenize_eof_terminated :
    (∀ s out stF, tokenizeFull s = some (out, stF) →
      tokenize s = some (out.map (fun q => q.1)) ∧
      (out.map (fun q => q.1)).getLast? = some ⟨.endOfFile, [], stF.line, stF.col⟩ ∧
      (out.map (fun q => q.1)).countP (fun t => t.type == TokenType.endOfFile) = 1) ∧
    tokenize " \n " = some [⟨.endOfFile, [], 2, 1⟩] := by
  constructor
  · intro s out stF h
    refine ⟨?_, ?_, ?_⟩
    · unfold tokenize
      rw [show tokenizeFull s = some (out, stF) from h]
      rfl
    · rw [List.getLast?_map, (tokenizeLoop_eof _ _ _ _ h).2.1]
      rfl
    · rw [List.countP_map]
      exact (tokenizeLoop_eof _ _ _ _ h).2.2
  · decide

/-- Witness for claim C7 at the whitespace-only input `" \n "`. -/
theorem tokenize_eof_terminated_witness :
    tokenize " \n " = some ([((⟨.endOfFile, [], 2, 1⟩ : Token), 2, 1)].map (fun q => q.1)) ∧
    ([((⟨.endOfFile, [], 2, 1⟩ : Token), 2, 1)].map (fun q => q.1)).getLast? =
      some ⟨.endOfFile, [], 2, 1⟩ ∧
    ([((⟨.endOfFile, [], 2, 1⟩ : Token), 2, 1)].map (fun q => q.1)).countP
      (fun t => t.type == TokenType.endOfFile) = 1 :=
  tokenize_eof_terminated.1 " \n " [((⟨.endOfFile, [], 2, 1⟩ : Token), 2, 1)] ⟨[], 2, 1⟩
    (by decide)

/-- Claim C8: the tokenizer terminates on every finite input without ever
raising an error — with fuel equal to the source length plus one (each loop
iteration consumes at least one character) the loop always completes. -/
theorem tokenize_terminates : ∀ s : String, (tokenize s).isSome = true := by
  intro s
  unfold tokenize
  have h := tokenizeFull_isSome s
  cases hf : tokenizeFull s with
  | none => rw [hf] at h; exact absurd h (by decide)
  | some p => rfl

/-- Claim C9: no statement-dispatch path of the parser constructs a
class-declaration node — every tree returned by a successful parse, at any
fuel and from any token sequence, is free of `classDecl` nodes, even though
that node kind exists in the data model. -/
theorem parse_never_builds_classDecl :
    (∀ n st out st', parseProgramLoop n st = .ok (out, st') → nodesNoClass out = true) ∧
    (∀ ts out, parseProgram ts = .ok out → nodesNoClass out = true) := by
  constructor
  · intro n st out st' h
    exact (noClassP_all n).programLoop st out st' h
  · intro ts out h
    unfold parseProgram at h
    cases hp : parseProgramLoop ((ts.length + 2) * 8) ⟨ts, 0⟩ with
    | error e => rw [hp] at h; exact absurd h (by intro hh; exact Except.noConfusion hh)
    | ok p =>
      rw [hp] at h
      have hout : p.1 = out := Except.ok.inj h
      rw [← hout]
      exact (noClassP_all _).programLoop _ p.1 p.2 (by rw [hp])

/-- Witness for claim C9 at the tokenization of `"entjera x;"`. -/
theorem parse_never_builds_classDecl_witness :
    nodesNoClass [.stmt (.varDecl ['x'] (Ty.mk .entjera none none []) none)] = true :=
  parse_never_builds_classDecl.2
    [⟨.entjera, "entjera".data, 1, 0⟩, ⟨.identifier, ['x'], 1, 8⟩,
      ⟨.semicolon, [';'], 1, 9⟩, ⟨.endOfFile, [], 1, 10⟩]
    [.stmt (.varDecl ['x'] (Ty.mk .entjera none none []) none)]
    (parseResEq _ _ (by decide))

/-- Claim C10: parenthesization leaves no trace in the tree — parsing the
tokenization of `"(x) = 1;"` succeeds and yields the assignment to `x`,
the very same tree as for `"x = 1;"`. -/
theorem paren_assignment_target_accepted :
    (tokenize "(x) = 1;" = some [⟨.lparen, ['('], 1, 0⟩, ⟨.identifier, ['x'], 1, 1⟩,
      ⟨.rparen, [')'], 1, 2⟩, ⟨.assign, ['='], 1, 4⟩, ⟨.number, ['1'], 1, 6⟩,
      ⟨.semicolon, [';'], 1, 7⟩, ⟨.endOfFile, [], 1, 8⟩]) ∧
    (tokenize "x = 1;" = some [⟨.identifier, ['x'], 1, 0⟩, ⟨.assign, ['='], 1, 2⟩,
      ⟨.number, ['1'], 1, 4⟩, ⟨.semicolon, [';'], 1, 5⟩, ⟨.endOfFile, [], 1, 6⟩]) ∧
    (parseProgram [⟨.lparen, ['('], 1, 0⟩, ⟨.identifier, ['x'], 1, 1⟩,
      ⟨.rparen, [')'], 1, 2⟩, ⟨.assign, ['='], 1, 4⟩, ⟨.number, ['1'], 1, 6⟩,
      ⟨.semicolon, [';'], 1, 7⟩, ⟨.endOfFile, [], 1, 8⟩] =
      .ok [.stmt (.assign ['x'] (.numberLiteral ['1'] false))]) ∧
    (parseProgram [⟨.identifier, ['x'], 1, 0⟩, ⟨.assign, ['='], 1, 2⟩,
      ⟨.number, ['1'], 1, 4⟩, ⟨.semicolon, [';'], 1, 5⟩, ⟨.endOfFile, [], 1, 6⟩] =
      .ok [.stmt (.assign ['x'] (.numberLiteral ['1'] false))]) :=
  ⟨by decide, by decide, parseResEq _ _ (by decide), parseResEq _ _ (by decide)⟩
